import Mathlib

/-!
Shallow embedding of the proxmox-ve-rs SDN fabric core:
address algebra (firewall/types/address.rs), the fabric configuration
model and validation (sdn/fabric/mod.rs and section_config), and the
FRR compiler (sdn/fabric/frr.rs), with theorems settling the frozen
claims about them.

Machine integers (u32 for IPv4, u128 for IPv6) are embedded as Nat
values below 2 ^ w with the width w passed explicitly; the IPv4 and
IPv6 code paths in the source are textually identical up to the width,
so the embedding is parameterized by w and instantiated at 32 and 128.
-/

namespace PveRs

/-- Width constant of the IPv4 code path (IPV4_LENGTH in address.rs). -/
def IPV4_LENGTH : Nat := 32

/-- Width constant of the IPv6 code path (IPV6_LENGTH in address.rs). -/
def IPV6_LENGTH : Nat := 128

/-- A CIDR of width w: a network address and a mask (prefix length).
Embeds Ipv4Cidr (w = 32) and Ipv6Cidr (w = 128) of
firewall/types/address.rs; addr is the big-endian integer value of the
address. -/
structure Cidr where
  addr : Nat
  mask : Nat
deriving DecidableEq, Repr

/-- Embedding of Ipv4Cidr::new / Ipv6Cidr::new: fails when the mask
exceeds the width. -/
def Cidr.new (w addr mask : Nat) : Option Cidr :=
  if w < mask then none else some ⟨addr, mask⟩

/-- Embedding of u32::checked_shr / u128::checked_shr: none when the
shift amount is at least the bit width. -/
def checkedShr (w x s : Nat) : Option Nat :=
  if s < w then some (x >>> s) else none

/-- Embedding of Ipv4Cidr::contains_address / Ipv6Cidr::contains_address:
compare both addresses shifted right by (width saturating-sub mask),
where a failed checked shift is replaced by 0 (unwrap_or(0)). -/
def Cidr.contains_address (w : Nat) (c : Cidr) (other : Nat) : Bool :=
  let shift_amount := w - c.mask
  (checkedShr w c.addr shift_amount).getD 0 == (checkedShr w other shift_amount).getD 0

/-- Embedding of u32::trailing_zeros / u128::trailing_zeros on a value
below 2 ^ w: the greatest k ≤ w such that 2 ^ k divides n (w when
n = 0, matching trailing_zeros of 0 being the bit width). -/
def trailingZeros (w n : Nat) : Nat :=
  Nat.findGreatest (fun k => n % 2 ^ k = 0) w

/-- The loop of AddressRange::to_cidrs (both the Ipv4 and the Ipv6
instance), entered only after the degenerate and full-range special
cases. Per iteration: current_max_mask is width minus trailing zeros of
current, delta_min_mask is width minus floor-log2 of the remaining
length, the emitted netmask is their max, and current advances by
delta = 2 ^ (width - netmask), the loop breaking when the checked
addition would overflow. The source computes delta with saturating_pow,
which saturates only when netmask = 0; the special cases in to_cidrs
make netmask ≥ 1 in every reachable loop iteration (see
toCidrs_netmask_pos below), so the plain power is the same function on
all reachable inputs. -/
def toCidrsLoop (w last : Nat) (current : Nat) : List Cidr :=
  if _h : current ≤ last then
    let current_max_mask := w - trailingZeros w current
    let delta_min_mask := w - Nat.log2 (last - current + 1)
    let netmask := max current_max_mask delta_min_mask
    let delta := 2 ^ (w - netmask)
    Cidr.mk current netmask ::
      (if 2 ^ w - 1 < current + delta then [] else toCidrsLoop w last (current + delta))
  else []
termination_by last + 1 - current
decreasing_by
  have hd : 0 < 2 ^ (w - max (w - trailingZeros w current)
      (w - Nat.log2 (last - current + 1))) := Nat.pos_pow_of_pos _ (by norm_num)
  have _hd2 : 0 < 2 ^ (w - netmask) := hd
  omega

/-- An address range of width w: start and last address, both inclusive
(AddressRange in address.rs). The constructor invariant start ≤ last is
checked by AddressRange.new below. -/
structure AddressRange where
  start : Nat
  last : Nat
deriving DecidableEq, Repr

/-- Embedding of AddressRange::new_v4 / new_v6: fails when start is
greater than last (IpRangeError::StartGreaterThanLast). -/
def AddressRange.new (start last : Nat) : Option AddressRange :=
  if start > last then none else some ⟨start, last⟩

/-- Embedding of AddressRange::to_cidrs (both instances): special-cases
the degenerate single-address range (one CIDR of mask w) and the full
address space (one CIDR of mask 0), otherwise runs the loop. -/
def AddressRange.to_cidrs (w : Nat) (r : AddressRange) : List Cidr :=
  if r.start = r.last then [⟨r.start, w⟩]
  else if r.start = 0 ∧ r.last = 2 ^ w - 1 then [⟨0, 0⟩]
  else toCidrsLoop w r.last r.start

/-! ### Semantic helpers for the address algebra proofs -/


/-- Membership of an address in the union of a list of CIDRs. -/
def memCidrs (w : Nat) (L : List Cidr) (x : Nat) : Prop :=
  ∃ c ∈ L, c.contains_address w x = true

/-- The effective shift of a CIDR: width minus mask. The set of
addresses a CIDR contains is the dyadic block of size 2 ^ eShift
around its address. -/
def eShift (w : Nat) (c : Cidr) : Nat := w - c.mask

/-- The netmask chosen by one iteration of toCidrsLoop. -/
def nmask (w last current : Nat) : Nat :=
  max (w - trailingZeros w current) (w - Nat.log2 (last - current + 1))

/-- Invariant established by toCidrsLoop: the returned list exactly
covers the interval from current to last, every returned CIDR is a
valid aligned block with positive netmask lying inside the interval,
and the blocks are pairwise ordered (hence disjoint). -/
def LoopSpec (w last current : Nat) (L : List Cidr) : Prop :=
  (∀ x, x < 2 ^ w → (memCidrs w L x ↔ current ≤ x ∧ x ≤ last)) ∧
  (∀ c ∈ L, 1 ≤ c.mask ∧ c.mask ≤ w ∧ c.addr < 2 ^ w ∧
    2 ^ (w - c.mask) ∣ c.addr ∧ current ≤ c.addr ∧
    c.addr + 2 ^ (w - c.mask) - 1 ≤ last) ∧
  L.Pairwise (fun c d => c.addr + 2 ^ (w - c.mask) ≤ d.addr)

/-!
### Fabric configuration data model

Embedding of sdn/fabric/section_config (fabric.rs, node.rs,
interface.rs, protocol/openfabric.rs, protocol/ospf.rs) and
sdn/fabric/mod.rs. Identifier types (FabricId, NodeId, InterfaceName)
are Strings; their regex/length constraints are enforced by the schema
at construction time and are not needed by the claims below. IPv4 and
IPv6 addresses are Nat values (big-endian integer value); the CIDR
types of proxmox-network-types are embedded by the same Cidr structure
as the firewall ones, with the width passed at the use sites.
Error payloads carry the underlying values where the source formats
them into strings for display.
-/
inductive FabricConfigError
  | fabricDoesNotExist (id : String)
  | nodeDoesNotExist (node : String) (fabric : String)
  | nodeIpOutsideFabricRange (ip : Nat) (pfx : Cidr)
  | protocolMismatch
  | duplicateFabric (id : String)
  | duplicateNode (node : String) (fabric : String)
  | duplicateNodeIp (fabric : String)
  | fabricNoIpPrefixForNode (fabric : String) (ip : Nat)
  | nodeNoIpForFabricPrefix (node : String) (pfx : Cidr)
  | fabricNoIpPrefix (fabric : String)
  | nodeNoIp (node : String)
  | duplicateInterface
  | ipv6Unsupported (protocol : String)
  | fabricIdMismatch
  | duplicateOspfArea
  | overlappingIp4Prefix (p2 : Cidr) (f2 : String) (p1 : Cidr) (f1 : String)
  | overlappingIp6Prefix (p2 : Cidr) (f2 : String) (p1 : Cidr) (f1 : String)
deriving DecidableEq, Repr

/-- OSPF area (proxmox-sdn-types area.rs): a raw 32-bit number or a
pseudo IPv4 address, kept in whichever form the user entered. -/
inductive Area
  | number (n : Nat)
  | ipAddress (ip : Nat)
deriving DecidableEq, Repr

/-- Area::get_ipv4_representation: the number converted to the 32-bit
address value, or the address itself. -/
def Area.get_ipv4_representation : Area → Nat
  | .number n => n
  | .ipAddress ip => ip

/-- Protocol-specific options of an OpenFabric fabric
(hello-interval and CSNP-interval in seconds, both optional). -/
structure OpenfabricProperties where
  hello_interval : Option Nat
  csnp_interval : Option Nat
deriving DecidableEq, Repr

/-- Protocol-specific options of an OSPF fabric: the mandatory area. -/
structure OspfProperties where
  area : Area
deriving DecidableEq, Repr

/-- Properties of an OpenFabric interface (interface name, optional
hello-multiplier override, optional IPv4/IPv6 CIDR). -/
structure OpenfabricInterfaceProperties where
  name : String
  hello_multiplier : Option Nat
  ip : Option Cidr
  ip6 : Option Cidr
deriving DecidableEq, Repr

/-- Properties of an OSPF interface (name, optional IPv4 CIDR). -/
structure OspfInterfaceProperties where
  name : String
  ip : Option Cidr
deriving DecidableEq, Repr

/-- Properties of an OpenFabric node: its interface list. -/
structure OpenfabricNodeProperties where
  interfaces : List OpenfabricInterfaceProperties
deriving DecidableEq, Repr

/-- Properties of an OSPF node: its interface list. -/
structure OspfNodeProperties where
  interfaces : List OspfInterfaceProperties
deriving DecidableEq, Repr

/-- FabricSection<T> of fabric.rs: common fabric fields plus
protocol-specific properties. The source field ip_prefix is named
prefix4 here and ip6_prefix is named prefix6. -/
structure FabricSection (T : Type) where
  id : String
  prefix4 : Option Cidr
  prefix6 : Option Cidr
  properties : T
deriving DecidableEq, Repr

/-- NodeSectionId of node.rs: fabric id and node id. -/
structure NodeSectionId where
  fabric_id : String
  node_id : String
deriving DecidableEq, Repr

/-- NodeSection<T> of node.rs: common node fields plus
protocol-specific properties. -/
structure NodeSection (T : Type) where
  id : NodeSectionId
  ip : Option Nat
  ip6 : Option Nat
  properties : T
deriving DecidableEq, Repr

/-- The Fabric enum of fabric.rs. -/
inductive Fabric
  | openfabric (s : FabricSection OpenfabricProperties)
  | ospf (s : FabricSection OspfProperties)
deriving DecidableEq, Repr

/-- The Node enum of node.rs. -/
inductive Node
  | openfabric (s : NodeSection OpenfabricNodeProperties)
  | ospf (s : NodeSection OspfNodeProperties)
deriving DecidableEq, Repr

def Fabric.id : Fabric → String
  | .openfabric s => s.id
  | .ospf s => s.id

/-- Fabric::ip_prefix. -/
def Fabric.prefix4 : Fabric → Option Cidr
  | .openfabric s => s.prefix4
  | .ospf s => s.prefix4

/-- Fabric::ip6_prefix. -/
def Fabric.prefix6 : Fabric → Option Cidr
  | .openfabric s => s.prefix6
  | .ospf s => s.prefix6

/-- Fabric::set_ip_prefix. -/
def Fabric.set_prefix4 : Fabric → Cidr → Fabric
  | .openfabric s, p => .openfabric { s with prefix4 := some p }
  | .ospf s, p => .ospf { s with prefix4 := some p }

/-- Fabric::set_ip6_prefix. -/
def Fabric.set_prefix6 : Fabric → Cidr → Fabric
  | .openfabric s, p => .openfabric { s with prefix6 := some p }
  | .ospf s, p => .ospf { s with prefix6 := some p }

def Node.id : Node → NodeSectionId
  | .openfabric s => s.id
  | .ospf s => s.id

def Node.ip : Node → Option Nat
  | .openfabric s => s.ip
  | .ospf s => s.ip

def Node.ip6 : Node → Option Nat
  | .openfabric s => s.ip6
  | .ospf s => s.ip6

/-- Display of a NodeSectionId, used in error payloads of the source. -/
def NodeSectionId.render (id : NodeSectionId) : String :=
  id.fabric_id ++ "_" ++ id.node_id

/-- Validatable for FabricSection<OpenfabricProperties>: at least one
of the two prefixes must be present. -/
def FabricSection.validateOpenfabric
    (s : FabricSection OpenfabricProperties) : Except FabricConfigError Unit :=
  if s.prefix4.isNone && s.prefix6.isNone then
    .error (.fabricNoIpPrefix s.id)
  else
    .ok ()

/-- Validatable for FabricSection<OspfProperties>: the IPv4 prefix is
mandatory and an IPv6 prefix is rejected. -/
def FabricSection.validateOspf
    (s : FabricSection OspfProperties) : Except FabricConfigError Unit :=
  if s.prefix4.isNone then
    .error (.fabricNoIpPrefix s.id)
  else if s.prefix6.isSome then
    .error (.ipv6Unsupported "ospf")
  else
    .ok ()

/-- Validatable for NodeSection<OpenfabricNodeProperties>: at least
one of IPv4/IPv6 address must be present. -/
def NodeSection.validateOpenfabric
    (s : NodeSection OpenfabricNodeProperties) : Except FabricConfigError Unit :=
  if s.ip.isNone && s.ip6.isNone then
    .error (.nodeNoIp s.id.render)
  else
    .ok ()

/-- Validatable for NodeSection<OspfNodeProperties>: the IPv4 address
is mandatory and an IPv6 address is rejected. -/
def NodeSection.validateOspf
    (s : NodeSection OspfNodeProperties) : Except FabricConfigError Unit :=
  if s.ip.isNone then
    .error (.nodeNoIp s.id.render)
  else if s.ip6.isSome then
    .error (.ipv6Unsupported "ospf")
  else
    .ok ()

/-- Validatable for Fabric: dispatch per protocol. -/
def Fabric.validate : Fabric → Except FabricConfigError Unit
  | .openfabric s => s.validateOpenfabric
  | .ospf s => s.validateOspf

/-- Validatable for Node: dispatch per protocol. -/
def Node.validate : Node → Except FabricConfigError Unit
  | .openfabric s => s.validateOpenfabric
  | .ospf s => s.validateOspf

/-- Sorted-association-list embedding of BTreeMap: insert replaces the
value when the key is present and otherwise inserts in key order. -/
def mapInsert {V : Type} (k : String) (v : V) :
    List (String × V) → List (String × V)
  | [] => [(k, v)]
  | (k', v') :: rest =>
    if k = k' then (k, v) :: rest
    else if k < k' then (k, v) :: (k', v') :: rest
    else (k', v') :: mapInsert k v rest

/-- BTreeMap::get as lookup on the association list. -/
def mapLookup {V : Type} (k : String) : List (String × V) → Option V
  | [] => none
  | (k', v) :: rest => if k' = k then some v else mapLookup k rest

/-- BTreeMap::contains_key. -/
def mapContains {V : Type} (k : String) (m : List (String × V)) : Bool :=
  (mapLookup k m).isSome

/-- Entry<F, N> of sdn/fabric/mod.rs: one fabric together with its
nodes, keyed by node id. The source stores the Fabric / Node enums and
uses phantom types to guarantee the variants match F and N; the
embedding stores the typed sections directly, which carries the same
information. -/
structure Entry (F N : Type) where
  fabric : FabricSection F
  nodes : List (String × NodeSection N)
deriving DecidableEq

/-- Entry::add_node: rejects a duplicate node id and a mismatched
fabric id, then inserts. -/
def Entry.add_node {F N : Type} (e : Entry F N) (node : NodeSection N) :
    Except FabricConfigError (Entry F N) :=
  if mapContains node.id.node_id e.nodes then
    .error (.duplicateNode node.id.node_id e.fabric.id)
  else if node.id.fabric_id ≠ e.fabric.id then
    .error .fabricIdMismatch
  else
    .ok { e with nodes := mapInsert node.id.node_id node e.nodes }

/-- The FabricEntry enum of sdn/fabric/mod.rs. -/
inductive FabricEntry
  | openfabric (e : Entry OpenfabricProperties OpenfabricNodeProperties)
  | ospf (e : Entry OspfProperties OspfNodeProperties)
deriving DecidableEq

/-- FabricEntry::fabric. -/
def FabricEntry.fabric : FabricEntry → Fabric
  | .openfabric e => Fabric.openfabric e.fabric
  | .ospf e => Fabric.ospf e.fabric

/-- FabricEntry::nodes as a list of (node id, Node) in map order. -/
def FabricEntry.nodes : FabricEntry → List (String × Node)
  | .openfabric e => e.nodes.map (fun p => (p.1, Node.openfabric p.2))
  | .ospf e => e.nodes.map (fun p => (p.1, Node.ospf p.2))

/-- FabricEntry::add_node: the node must match the protocol of the
entry. -/
def FabricEntry.add_node : FabricEntry → Node →
    Except FabricConfigError FabricEntry
  | .openfabric e, Node.openfabric ns => (e.add_node ns).map .openfabric
  | .ospf e, Node.ospf ns => (e.add_node ns).map .ospf
  | _, _ => .error .protocolMismatch

/-- From<Fabric> for FabricEntry: an entry with no nodes. -/
def FabricEntry.fromFabric : Fabric → FabricEntry
  | Fabric.openfabric s => .openfabric ⟨s, []⟩
  | Fabric.ospf s => .ospf ⟨s, []⟩

/-- The IPv4 prefix / node-ip check of FabricEntry::validate: a node
address without a fabric prefix, a fabric prefix without a node
address, and an address outside the prefix are rejected. -/
def checkPrefix4 (fabric : Fabric) (node : Node) :
    Except FabricConfigError Unit :=
  match Fabric.prefix4 fabric, Node.ip node with
  | none, some ip => .error (.fabricNoIpPrefixForNode (Fabric.id fabric) ip)
  | some pfx, none => .error (.nodeNoIpForFabricPrefix (Node.id node).render pfx)
  | some pfx, some ip =>
    if !(pfx.contains_address 32 ip) then
      .error (.nodeIpOutsideFabricRange ip pfx)
    else
      .ok ()
  | none, none => .ok ()

/-- The IPv6 analogue of checkPrefix4 in FabricEntry::validate. -/
def checkPrefix6 (fabric : Fabric) (node : Node) :
    Except FabricConfigError Unit :=
  match Fabric.prefix6 fabric, Node.ip6 node with
  | none, some ip => .error (.fabricNoIpPrefixForNode (Fabric.id fabric) ip)
  | some pfx, none => .error (.nodeNoIpForFabricPrefix (Node.id node).render pfx)
  | some pfx, some ip =>
    if !(pfx.contains_address 128 ip) then
      .error (.nodeIpOutsideFabricRange ip pfx)
    else
      .ok ()
  | none, none => .ok ()

/-- The HashSet::insert of a node address in FabricEntry::validate,
embedded as a guarded list extension: a duplicate address within the
fabric is rejected. -/
def insertNodeIp (fabric_id : String) : Option Nat → List Nat →
    Except FabricConfigError (List Nat)
  | some ip, ips =>
    if ip ∈ ips then .error (.duplicateNodeIp fabric_id) else .ok (ip :: ips)
  | none, ips => .ok ips

/-- The per-node loop of FabricEntry::validate: prefix/address checks
for both families, uniqueness of node IPv4 and IPv6 addresses within
the fabric (the HashSets ips/ip6s embedded as lists), and the node's
own validation. -/
def validateNodesLoop (fabric : Fabric) :
    List (String × Node) → List Nat → List Nat →
    Except FabricConfigError Unit
  | [], _, _ => .ok ()
  | (_, node) :: rest, ips, ip6s =>
    checkPrefix4 fabric node >>= fun _ =>
    checkPrefix6 fabric node >>= fun _ =>
    insertNodeIp (Fabric.id fabric) (Node.ip node) ips >>= fun ips' =>
    insertNodeIp (Fabric.id fabric) (Node.ip6 node) ip6s >>= fun ip6s' =>
    Node.validate node >>= fun _ =>
    validateNodesLoop fabric rest ips' ip6s'

/-- Validatable for FabricEntry: per-node checks, then the fabric's
own validation. -/
def FabricEntry.validate (e : FabricEntry) : Except FabricConfigError Unit :=
  validateNodesLoop e.fabric e.nodes [] [] >>= fun _ =>
  e.fabric.validate

/-- Modelled from the spec: Cidr::overlaps lives in the external
proxmox-network-types crate, which is not under src. Per the spec
(section 4.1), two CIDRs overlap iff one contains the network address
of the other under the shorter prefix, equivalently iff either
contains the address of the other. -/
def Cidr.overlaps (w : Nat) (a b : Cidr) : Bool :=
  a.contains_address w b.addr || b.contains_address w a.addr

/-- Modelled from the spec: Cidr::canonical lives in the external
proxmox-network-types crate, which is not under src. It returns the
canonical network form of a CIDR: the host bits below the prefix
length cleared, the mask kept. -/
def Cidr.canonical (w : Nat) (c : Cidr) : Cidr :=
  ⟨c.addr / 2 ^ (w - c.mask) * 2 ^ (w - c.mask), c.mask⟩

/-- A complete SDN fabric configuration: fabric entries keyed by
fabric id. -/
structure FabricConfig where
  fabrics : List (String × FabricEntry)
deriving DecidableEq

/-- The ordered pairs (i < j) of the cartesian-product iterator in
FabricConfig::validate. -/
def orderedPairs {α : Type} : List α → List (α × α)
  | [] => []
  | a :: rest => rest.map (fun b => (a, b)) ++ orderedPairs rest

/-- The IPv4 half of the overlap check for one ordered fabric pair. -/
def checkPairOverlap4 (fabric1 fabric2 : Fabric) : Except FabricConfigError Unit :=
  match Fabric.prefix4 fabric1, Fabric.prefix4 fabric2 with
  | some p1, some p2 =>
    if p1.overlaps 32 p2 then
      .error (.overlappingIp4Prefix p2 (Fabric.id fabric2) p1 (Fabric.id fabric1))
    else
      .ok ()
  | _, _ => .ok ()

/-- The IPv6 half of the overlap check for one ordered fabric pair. -/
def checkPairOverlap6 (fabric1 fabric2 : Fabric) : Except FabricConfigError Unit :=
  match Fabric.prefix6 fabric1, Fabric.prefix6 fabric2 with
  | some p1, some p2 =>
    if p1.overlaps 128 p2 then
      .error (.overlappingIp6Prefix p2 (Fabric.id fabric2) p1 (Fabric.id fabric1))
    else
      .ok ()
  | _, _ => .ok ()

/-- The pairwise prefix-overlap check of FabricConfig::validate: for
each ordered pair of fabrics, overlapping IPv4 prefixes and then
overlapping IPv6 prefixes are rejected. -/
def checkOverlapsLoop : List (Fabric × Fabric) → Except FabricConfigError Unit
  | [] => .ok ()
  | (fabric1, fabric2) :: rest =>
    checkPairOverlap4 fabric1 fabric2 >>= fun _ =>
    checkPairOverlap6 fabric1 fabric2 >>= fun _ =>
    checkOverlapsLoop rest

/-- The interface names of a node; both protocol arms of the source
perform the same (node id, interface name) insertion. -/
def Node.interfaceNames : Node → List String
  | .openfabric s => s.properties.interfaces.map (fun i => i.name)
  | .ospf s => s.properties.interfaces.map (fun i => i.name)

/-- The short-circuiting HashSet insertion over one node's interface
names in FabricConfig::validate; returns the grown set. -/
def checkNodeInterfaces (node_id : String) :
    List String → List (String × String) →
    Except FabricConfigError (List (String × String))
  | [], set => .ok set
  | name :: rest, set =>
    if (node_id, name) ∈ set then
      .error .duplicateInterface
    else
      checkNodeInterfaces node_id rest ((node_id, name) :: set)

/-- The per-entry node loop of the interface-uniqueness check. -/
def checkEntryInterfaces :
    List (String × Node) → List (String × String) →
    Except FabricConfigError (List (String × String))
  | [], set => .ok set
  | (node_id, node) :: rest, set =>
    checkNodeInterfaces node_id (Node.interfaceNames node) set >>= fun set' =>
    checkEntryInterfaces rest set'

/-- The OSPF-area HashSet::insert of FabricConfig::validate: only OSPF
entries insert, with areas compared through their IPv4
representation. -/
def insertOspfArea (entry : FabricEntry) (ospf_area : List Nat) :
    Except FabricConfigError (List Nat) :=
  match entry with
  | FabricEntry.ospf e =>
    let a := e.fabric.properties.area.get_ipv4_representation
    if a ∈ ospf_area then
      .error .duplicateOspfArea
    else
      .ok (a :: ospf_area)
  | _ => .ok ospf_area

/-- The main entry loop of FabricConfig::validate: per entry, the OSPF
area-uniqueness insertion, the (node, interface) uniqueness insertion,
and the entry's own validation, threading both accumulated sets. -/
def validateEntriesLoop :
    List (String × FabricEntry) → List (String × String) → List Nat →
    Except FabricConfigError Unit
  | [], _, _ => .ok ()
  | (_, entry) :: rest, node_interfaces, ospf_area =>
    insertOspfArea entry ospf_area >>= fun ospf_area' =>
    checkEntryInterfaces entry.nodes node_interfaces >>= fun node_interfaces' =>
    entry.validate >>= fun _ =>
    validateEntriesLoop rest node_interfaces' ospf_area'

/-- Validatable for FabricConfig: pairwise prefix-overlap checks, then
the per-entry loop with global OSPF-area and (node, interface)
uniqueness. -/
def FabricConfig.validate (cfg : FabricConfig) : Except FabricConfigError Unit :=
  checkOverlapsLoop (orderedPairs (cfg.fabrics.map (fun p => FabricEntry.fabric p.2))) >>= fun _ =>
  validateEntriesLoop cfg.fabrics [] []

/-- The Valid<T> wrapper of common/valid.rs: contents are readable but
not modifiable; it is only constructed by Validatable::into_valid. -/
structure Valid (T : Type) where
  val : T
deriving DecidableEq

/-- Validatable::into_valid for FabricConfig: validate, then wrap. -/
def FabricConfig.into_valid (cfg : FabricConfig) :
    Except FabricConfigError (Valid FabricConfig) :=
  match cfg.validate with
  | .ok _ => .ok ⟨cfg⟩
  | .error e => .error e

/-- FabricConfig::add_fabric: reject a duplicate id, canonicalize both
prefixes when present, insert an entry with no nodes. -/
def FabricConfig.add_fabric (cfg : FabricConfig) (fabric : Fabric) :
    Except FabricConfigError FabricConfig :=
  if mapContains (Fabric.id fabric) cfg.fabrics then
    .error (.duplicateFabric (Fabric.id fabric))
  else
    let fabric := match Fabric.prefix4 fabric with
      | some pfx => Fabric.set_prefix4 fabric (pfx.canonical 32)
      | none => fabric
    let fabric := match Fabric.prefix6 fabric with
      | some pfx => Fabric.set_prefix6 fabric (pfx.canonical 128)
      | none => fabric
    .ok ⟨mapInsert (Fabric.id fabric) (FabricEntry.fromFabric fabric) cfg.fabrics⟩

/-- The Section enum of section_config/mod.rs. -/
inductive Section
  | openfabricFabric (s : FabricSection OpenfabricProperties)
  | ospfFabric (s : FabricSection OspfProperties)
  | openfabricNode (s : NodeSection OpenfabricNodeProperties)
  | ospfNode (s : NodeSection OspfNodeProperties)
deriving DecidableEq

/-- FabricOrNode::from for Section. -/
def Section.toFabricOrNode : Section → Fabric ⊕ Node
  | .openfabricFabric s => .inl (Fabric.openfabric s)
  | .ospfFabric s => .inl (Fabric.ospf s)
  | .openfabricNode s => .inr (Node.openfabric s)
  | .ospfNode s => .inr (Node.ospf s)

/-- The second loop of FabricConfig::from_section_config: each node is
added to its fabric entry, failing when the fabric does not exist. -/
def addNodesLoop : List Node → List (String × FabricEntry) →
    Except FabricConfigError (List (String × FabricEntry))
  | [], m => .ok m
  | n :: rest, m =>
    match mapLookup n.id.fabric_id m with
    | none => .error (.fabricDoesNotExist n.id.fabric_id)
    | some entry =>
      entry.add_node n >>= fun entry' =>
      addNodesLoop rest (mapInsert n.id.fabric_id entry' m)

/-- FabricConfig::from_section_config: sort the sections into fabrics
(inserted as empty entries keyed by id) and nodes, add each node to
its fabric, then validate the result via into_valid. -/
def FabricConfig.from_section_config (config : List (String × Section)) :
    Except FabricConfigError (Valid FabricConfig) :=
  let acc := config.foldl
    (fun (acc : List (String × FabricEntry) × List Node) p =>
      match p.2.toFabricOrNode with
      | .inl f => (mapInsert (Fabric.id f) (FabricEntry.fromFabric f) acc.1, acc.2)
      | .inr n => (acc.1, acc.2 ++ [n]))
    ([], [])
  addNodesLoop acc.2 acc.1 >>= fun fabrics =>
  FabricConfig.into_valid ⟨fabrics⟩

/-- The canonical form of a fabric as claim C10 states it: both
prefixes replaced by their canonical network forms, every other field
unchanged; stated independently of add_fabric for comparison. -/
def Fabric.withCanonicalPrefixes : Fabric → Fabric
  | .openfabric s => .openfabric { s with
      prefix4 := s.prefix4.map (Cidr.canonical 32),
      prefix6 := s.prefix6.map (Cidr.canonical 128) }
  | .ospf s => .ospf { s with
      prefix4 := s.prefix4.map (Cidr.canonical 32),
      prefix6 := s.prefix6.map (Cidr.canonical 128) }

/-- A concrete single-fabric single-node entry used by witnesses. -/
def sampleEntry1 : FabricEntry :=
  .openfabric ⟨⟨"f1", some ⟨0x0A000000, 24⟩, none, ⟨none, none⟩⟩,
    [("pve", ⟨⟨"f1", "pve"⟩, some 0x0A000001, none, ⟨[]⟩⟩)]⟩

/-- The (node id, interface name) pairs contributed by one node, in
source iteration order. -/
def nodePairs (node_id : String) (node : Node) : List (String × String) :=
  (Node.interfaceNames node).map (fun name => (node_id, name))

/-- The (node id, interface name) pairs contributed by the nodes of
one entry. -/
def entryPairs : List (String × Node) → List (String × String)
  | [] => []
  | (node_id, node) :: rest => nodePairs node_id node ++ entryPairs rest

/-- The (node id, interface name) pairs of a whole configuration, in
validation iteration order. -/
def configPairs : List (String × FabricEntry) → List (String × String)
  | [] => []
  | (_, e) :: rest => entryPairs e.nodes ++ configPairs rest

/-- All (node id, interface name) pairs of a configuration. -/
def interfacePairs (cfg : FabricConfig) : List (String × String) :=
  configPairs cfg.fabrics

/-- The same node with its interface list emptied. -/
def Node.stripInterfaces : Node → Node
  | .openfabric s => .openfabric { s with properties := ⟨[]⟩ }
  | .ospf s => .ospf { s with properties := ⟨[]⟩ }

/-- An OpenFabric node section with its interface list emptied. -/
def NodeSection.stripOpenfabric (s : NodeSection OpenfabricNodeProperties) :
    NodeSection OpenfabricNodeProperties :=
  { s with properties := ⟨[]⟩ }

/-- An OSPF node section with its interface list emptied. -/
def NodeSection.stripOspf (s : NodeSection OspfNodeProperties) :
    NodeSection OspfNodeProperties :=
  { s with properties := ⟨[]⟩ }

/-- The same entry with all interface lists emptied. -/
def FabricEntry.stripInterfaces : FabricEntry → FabricEntry
  | .openfabric e => .openfabric
      { e with nodes := e.nodes.map (fun p => (p.1, p.2.stripOpenfabric)) }
  | .ospf e => .ospf
      { e with nodes := e.nodes.map (fun p => (p.1, p.2.stripOspf)) }

/-- The same configuration with all interface lists emptied; it keeps
every fabric, node, prefix, address and area, and only drops the
interfaces, so it passes exactly the non-interface checks. -/
def FabricConfig.stripInterfaces (cfg : FabricConfig) : FabricConfig :=
  ⟨cfg.fabrics.map (fun p => (p.1, p.2.stripInterfaces))⟩

/-!
### FRR record model and the fabric compiler

Embedding of the ser types of proxmox-frr (ser/mod.rs, ser/ospf.rs,
ser/openfabric.rs, ser/route_map.rs), the NET type of
proxmox-sdn-types (net.rs) and build_fabric of sdn/fabric/frr.rs.
FrrWord and the name types are Strings carrying the constructor
checks; the BTreeMaps of FrrConfig are embedded as association lists
with a key-unique replace-or-append insert (their iteration order is
not used by any claim); the Vec fields push at the end; the BTreeSet
of protocol route-maps inserts only when absent. The tracing log
calls on duplicate interface insertion are no-ops and are dropped.
-/


/-- Zero-padded decimal rendering (the Rust 0-width format). -/
def padDec (width n : Nat) : String :=
  let s := Nat.repr n
  String.mk (List.replicate (width - s.length) (Char.ofNat 48)) ++ s

/-- A lowercase hexadecimal digit. -/
def hexChar (n : Nat) : Char :=
  if n < 10 then Char.ofNat (48 + n) else Char.ofNat (87 + n)

/-- Four-digit lowercase hexadecimal rendering (the Rust 04x format). -/
def toHex4 (n : Nat) : String :=
  String.mk [hexChar (n / 4096 % 16), hexChar (n / 256 % 16),
    hexChar (n / 16 % 16), hexChar (n % 16)]

/-- Octet i (big-endian, 0-based) of an IPv4 address value. -/
def octet (ip i : Nat) : Nat := ip / 2 ^ (8 * (3 - i)) % 256

/-- Segment i (big-endian, 0-based) of an IPv6 address value. -/
def seg16 (ip6 i : Nat) : Nat := ip6 / 2 ^ (16 * (7 - i)) % 65536

/-- Dotted-decimal rendering of an IPv4 address value. -/
def ipv4ToString (ip : Nat) : String :=
  Nat.repr (octet ip 0) ++ "." ++ Nat.repr (octet ip 1) ++ "." ++
  Nat.repr (octet ip 2) ++ "." ++ Nat.repr (octet ip 3)

/-- From<Ipv4Addr> for NetSystemId (net.rs). -/
def netSystemIdV4 (ip : Nat) : String :=
  padDec 3 (octet ip 0) ++ padDec 1 (octet ip 1 / 100) ++ "." ++
  padDec 2 (octet ip 1 % 100) ++ padDec 2 (octet ip 2 / 10) ++ "." ++
  padDec 1 (octet ip 2 % 10) ++ padDec 3 (octet ip 3)

/-- From<Ipv6Addr> for NetSystemId (net.rs): the last three segments. -/
def netSystemIdV6 (ip6 : Nat) : String :=
  toHex4 (seg16 ip6 5) ++ "." ++ toHex4 (seg16 ip6 6) ++ "." ++ toHex4 (seg16 ip6 7)

/-- The Network Entity Title (net.rs). -/
structure Net where
  afi : String
  area : String
  system : String
  selector : String
deriving DecidableEq, Repr

/-- From<Ipv4Addr> for Net: default AFI 49, area 0001, selector 00. -/
def Net.fromIpv4 (ip : Nat) : Net := ⟨"49", "0001", netSystemIdV4 ip, "00"⟩

/-- From<Ipv6Addr> for Net: default AFI 49, area 0001, selector 00. -/
def Net.fromIpv6 (ip6 : Nat) : Net := ⟨"49", "0001", netSystemIdV6 ip6, "00"⟩

/-- Display for the sdn-types Area: the raw number or the dotted
address, whichever was entered. -/
def Area.render : Area → String
  | .number n => Nat.repr n
  | .ipAddress ip => ipv4ToString ip

/-- Errors of the compiler embedding: FrrWord and interface-name
construction failures, area validation failure, the anyhow error for a
node without any address, and the two expect panics of the OSPF
branch. -/
inductive FrrError
  | frrWordIsEmpty
  | frrWordInvalidChar
  | interfaceNameTooLong
  | invalidArea
  | noIpForNode
  | panicNodeNoIpv4
  | panicFabricNoPrefix
deriving DecidableEq, Repr

/-- Rust char::is_ascii_whitespace. -/
def isAsciiWhitespace (c : Char) : Bool :=
  c = ' ' || c = Char.ofNat 9 || c = Char.ofNat 10 || c = Char.ofNat 12 || c = Char.ofNat 13

/-- FrrWord::new: nonempty, ASCII only, no whitespace. -/
def FrrWord.new (s : String) : Except FrrError String :=
  if s.isEmpty then .error .frrWordIsEmpty
  else if s.data.any (fun c => decide (128 ≤ c.toNat) || isAsciiWhitespace c) then
    .error .frrWordInvalidChar
  else .ok s

/-- CommonInterfaceName::new: at most 15 bytes (the source inputs are
ASCII, so the character count used here coincides). -/
def CommonInterfaceName.new (s : String) : Except FrrError String :=
  if s.length ≤ 15 then .ok s else .error .interfaceNameTooLong

/-- An ASCII decimal digit. -/
def isDigitChar (c : Char) : Bool :=
  decide (48 ≤ c.toNat) && decide (c.toNat ≤ 57)

/-- The value of a decimal digit string. -/
def digitsToNat (cs : List Char) : Nat :=
  cs.foldl (fun a c => a * 10 + (c.toNat - 48)) 0

/-- A decimal string accepted by Rust u32::from_str (nonempty, digits
only and below 2^32; the canonical renderings fed to it never carry
signs). -/
def isU32String (s : String) : Bool :=
  !s.data.isEmpty && s.data.all isDigitChar && decide (digitsToNat s.data < 2 ^ 32)

/-- Split a character list at the dots, for the dotted-quad parse. -/
def splitOnDot : List Char → List (List Char)
  | [] => [[]]
  | c :: rest =>
    match splitOnDot rest with
    | [] => [[c]]
    | g :: gs => if c = Char.ofNat 46 then [] :: g :: gs else (c :: g) :: gs

/-- A dotted-quad string accepted by the Rust Ipv4Addr parser (four
nonempty decimal groups of value at most 255; the canonical renderings
fed to it never carry leading zeros). -/
def isIpv4String (s : String) : Bool :=
  let parts := splitOnDot s.data
  parts.length == 4 &&
    parts.all (fun p => !p.isEmpty && p.all isDigitChar && decide (digitsToNat p ≤ 255))

/-- ser::ospf::Area::new: the word must parse as a u32 or as an IPv4
address. -/
def SerArea.new (w : String) : Except FrrError String :=
  if isU32String w || isIpv4String w then .ok w else .error .invalidArea

/-- RouterName (ser/mod.rs): the OpenFabric variant carries the
FrrWord of the fabric id, the OSPF variant is the constant name. -/
inductive SerRouterName
  | openfabric (w : String)
  | ospf
deriving DecidableEq, Repr

/-- OpenfabricRouter (ser/openfabric.rs). -/
structure OpenfabricRouter where
  net : Net
deriving DecidableEq, Repr

/-- OspfRouter (ser/ospf.rs). -/
structure OspfRouter where
  router_id : Nat
deriving DecidableEq, Repr

/-- Router (ser/mod.rs). -/
inductive SerRouter
  | openfabric (r : OpenfabricRouter)
  | ospf (r : OspfRouter)
deriving DecidableEq, Repr

/-- InterfaceName (ser/mod.rs): one variant per protocol so one
interface may appear in an OSPF and an OpenFabric fabric. -/
inductive SerInterfaceName
  | openfabric (n : String)
  | ospf (n : String)
deriving DecidableEq, Repr

/-- OpenfabricInterface (ser/openfabric.rs). -/
structure SerOpenfabricInterface where
  fabric_id : String
  passive : Option Bool
  hello_interval : Option Nat
  csnp_interval : Option Nat
  hello_multiplier : Option Nat
  is_ipv4 : Bool
  is_ipv6 : Bool
deriving DecidableEq, Repr

/-- NetworkType (ser/ospf.rs). -/
inductive NetworkType
  | broadcast
  | nonBroadcast
  | pointToPoint
  | pointToMultipoint
deriving DecidableEq, Repr

/-- OspfInterface (ser/ospf.rs); the area is the validated FrrWord. -/
structure SerOspfInterface where
  area : String
  passive : Option Bool
  network_type : Option NetworkType
deriving DecidableEq, Repr

/-- Interface (ser/mod.rs). -/
inductive SerInterface
  | openfabric (i : SerOpenfabricInterface)
  | ospf (i : SerOspfInterface)
deriving DecidableEq, Repr

/-- AccessAction (ser/route_map.rs). -/
inductive AccessAction
  | permit
  | deny
deriving DecidableEq, Repr

/-- The network-types Cidr enum used in access-list rules. -/
inductive FrrCidr
  | v4 (c : Cidr)
  | v6 (c : Cidr)
deriving DecidableEq, Repr

/-- AccessListRule (ser/route_map.rs). -/
structure AccessListRule where
  action : AccessAction
  network : FrrCidr
  seq : Option Nat
deriving DecidableEq, Repr

/-- AccessList (ser/route_map.rs); the name is an AccessListName. -/
structure AccessList where
  name : String
  rules : List AccessListRule
deriving DecidableEq, Repr

/-- RouteMapMatch with its V4/V6 IpAddress access-list payloads. -/
inductive RouteMapMatch
  | v4ip (access_list : String)
  | v6ip (access_list : String)
deriving DecidableEq, Repr

/-- The std IpAddr enum as used in route-map set directives. -/
inductive IpAddrV
  | v4 (n : Nat)
  | v6 (n : Nat)
deriving DecidableEq, Repr

/-- RouteMapSet (ser/route_map.rs): source-address rewrite. -/
inductive RouteMapSet
  | ipSrc (ip : IpAddrV)
deriving DecidableEq, Repr

/-- RouteMap (ser/route_map.rs); the source field matches is named
matchers here. -/
structure RouteMap where
  name : String
  seq : Nat
  action : AccessAction
  matchers : List RouteMapMatch
  sets : List RouteMapSet
deriving DecidableEq, Repr

/-- ProtocolType (ser/route_map.rs). -/
inductive ProtocolType
  | openfabric
  | ospf
deriving DecidableEq, Repr

/-- ProtocolRouteMap (ser/route_map.rs). -/
structure ProtocolRouteMap where
  is_ipv6 : Bool
  protocol : ProtocolType
  routemap_name : String
deriving DecidableEq, Repr

/-- Key-unique replace-or-append insert for the BTreeMaps of
FrrConfig (iteration order is not modelled). -/
def amInsert {K V : Type} [DecidableEq K] (k : K) (v : V) :
    List (K × V) → List (K × V)
  | [] => [(k, v)]
  | (k', v') :: rest => if k = k' then (k, v) :: rest else (k', v') :: amInsert k v rest

/-- Lookup for the BTreeMaps of FrrConfig. -/
def amLookup {K V : Type} [DecidableEq K] (k : K) : List (K × V) → Option V
  | [] => none
  | (k', v) :: rest => if k' = k then some v else amLookup k rest

/-- BTreeSet::insert for protocol route-maps. -/
def psInsert (p : ProtocolRouteMap) (s : List ProtocolRouteMap) : List ProtocolRouteMap :=
  if p ∈ s then s else s ++ [p]

/-- FrrConfig (ser/mod.rs). -/
structure FrrConfig where
  router : List (SerRouterName × SerRouter)
  interfaces : List (SerInterfaceName × SerInterface)
  access_lists : List AccessList
  routemaps : List RouteMap
  protocol_routemaps : List ProtocolRouteMap
deriving DecidableEq, Repr

/-- FrrConfig::new. -/
def FrrConfig.new : FrrConfig := ⟨[], [], [], [], []⟩

/-- build_ospf_router (frr.rs). -/
def build_ospf_router (router_id : Nat) :
    Except FrrError (SerRouterName × SerRouter) :=
  .ok (.ospf, .ospf ⟨router_id⟩)

/-- build_openfabric_router (frr.rs). -/
def build_openfabric_router (fabric_id : String) (net : Net) :
    Except FrrError (SerRouterName × SerRouter) :=
  FrrWord.new fabric_id >>= fun w =>
  .ok (.openfabric w, .openfabric ⟨net⟩)

/-- build_openfabric_dummy_interface (frr.rs): passive and named
dummy_ followed by the fabric id. -/
def build_openfabric_dummy_interface (fabric_id : String) (is_ipv4 is_ipv6 : Bool) :
    Except FrrError (SerInterface × SerInterfaceName) :=
  FrrWord.new fabric_id >>= fun w =>
  CommonInterfaceName.new ("dummy_" ++ fabric_id) >>= fun n =>
  .ok (.openfabric ⟨w, some true, none, none, none, is_ipv4, is_ipv6⟩, .openfabric n)

/-- build_openfabric_interface (frr.rs): hello and CSNP intervals come
from the fabric config (the reassignment of hello_interval when none
is the identity), the hello multiplier from the interface. -/
def build_openfabric_interface (fabric_id : String)
    (interface : OpenfabricInterfaceProperties)
    (fabric_config : OpenfabricProperties) (is_ipv4 is_ipv6 : Bool) :
    Except FrrError (SerInterface × SerInterfaceName) :=
  FrrWord.new fabric_id >>= fun w =>
  CommonInterfaceName.new interface.name >>= fun n =>
  .ok (.openfabric ⟨w, none, fabric_config.hello_interval, fabric_config.csnp_interval,
    interface.hello_multiplier, is_ipv4, is_ipv6⟩, .openfabric n)

/-- build_ospf_interface (frr.rs): never passive, point-to-point
exactly when the interface carries no address. -/
def build_ospf_interface (area : String) (interface : OspfInterfaceProperties) :
    Except FrrError (SerInterface × SerInterfaceName) :=
  CommonInterfaceName.new interface.name >>= fun n =>
  .ok (.ospf ⟨area, none,
    if interface.ip.isSome then none else some NetworkType.pointToPoint⟩, .ospf n)

/-- build_ospf_dummy_interface (frr.rs): passive, tagged with the
area; the source files it under the Openfabric name variant. -/
def build_ospf_dummy_interface (fabric_id : String) (area : String) :
    Except FrrError (SerInterface × SerInterfaceName) :=
  CommonInterfaceName.new ("dummy_" ++ fabric_id) >>= fun n =>
  .ok (.ospf ⟨area, some true, none⟩, .openfabric n)

/-- build_openfabric_routemap (frr.rs). -/
def build_openfabric_routemap (fabric_id : String) (router_ip : IpAddrV) (seq : Nat) :
    RouteMap :=
  match router_ip with
  | .v4 _ => ⟨"pve_openfabric", seq, .permit,
      [.v4ip ("pve_openfabric_" ++ fabric_id ++ "_ips")], [.ipSrc router_ip]⟩
  | .v6 _ => ⟨"pve_openfabric6", seq, .permit,
      [.v6ip ("pve_openfabric_" ++ fabric_id ++ "_ip6s")], [.ipSrc router_ip]⟩

/-- build_ospf_dummy_routemap (frr.rs). -/
def build_ospf_dummy_routemap (fabric_id : String) (router_ip : Nat) (seq : Nat) :
    Except FrrError RouteMap :=
  .ok ⟨"pve_ospf", seq, .permit,
    [.v4ip ("pve_ospf_" ++ fabric_id ++ "_ips")], [.ipSrc (.v4 router_ip)]⟩

/-- The local mutable state of one build_fabric invocation: the
route-map sequence counter (starting at 100), the cached OSPF
router id, the cached OpenFabric NET, and the output accumulator. -/
structure BuildState where
  routemap_seq : Nat
  current_router_id : Option Nat
  current_net : Option Net
  frr : FrrConfig
deriving DecidableEq, Repr

/-- The interface loop of the OpenFabric branch of build_fabric. -/
def buildOFInterfaces (fabric_id : String) (fabric_config : OpenfabricProperties)
    (is_ipv4 is_ipv6 : Bool) :
    List OpenfabricInterfaceProperties → FrrConfig → Except FrrError FrrConfig
  | [], frr => .ok frr
  | i :: rest, frr =>
    build_openfabric_interface fabric_id i fabric_config is_ipv4 is_ipv6 >>= fun r =>
    buildOFInterfaces fabric_id fabric_config is_ipv4 is_ipv6 rest
      { frr with interfaces := amInsert r.2 r.1 frr.interfaces }

/-- The interface loop of the OSPF branch of build_fabric. -/
def buildOspfInterfaces (area : String) :
    List OspfInterfaceProperties → FrrConfig → Except FrrError FrrConfig
  | [], frr => .ok frr
  | i :: rest, frr =>
    build_ospf_interface area i >>= fun r =>
    buildOspfInterfaces area rest { frr with interfaces := amInsert r.2 r.1 frr.interfaces }

/-- One iteration of the build_fabric loop over the configuration
entries: the OpenFabric and OSPF branches, skipping the whole entry
when the current node has no node section in it. -/
def buildFabricEntry (current_node fabric_id : String) (entry : FabricEntry)
    (st : BuildState) : Except FrrError BuildState :=
  match entry with
  | .openfabric openfabric_entry =>
    match mapLookup current_node openfabric_entry.nodes with
    | none => .ok st
    | some node =>
      let net_opt := match st.current_net with
        | none =>
          (match node.ip, node.ip6 with
           | some ip, _ => some (Net.fromIpv4 ip)
           | _, some ip6 => some (Net.fromIpv6 ip6)
           | _, _ => none)
        | some n => some n
      match net_opt with
      | none => .error .noIpForNode
      | some net =>
        build_openfabric_router fabric_id net >>= fun router =>
        let frr1 := { st.frr with router := amInsert router.1 router.2 st.frr.router }
        build_openfabric_dummy_interface fabric_id node.ip.isSome node.ip6.isSome >>= fun dummy =>
        let frr2 := { frr1 with interfaces := amInsert dummy.2 dummy.1 frr1.interfaces }
        buildOFInterfaces fabric_id openfabric_entry.fabric.properties
          node.ip.isSome node.ip6.isSome node.properties.interfaces frr2 >>= fun frr3 =>
        let frr4 : FrrConfig := match openfabric_entry.fabric.prefix4 with
          | some c => { frr3 with access_lists := frr3.access_lists ++
              [⟨"pve_openfabric_" ++ fabric_id ++ "_ips", [⟨.permit, .v4 c, none⟩]⟩] }
          | none => frr3
        let frr5 : FrrConfig := match openfabric_entry.fabric.prefix6 with
          | some c => { frr4 with access_lists := frr4.access_lists ++
              [⟨"pve_openfabric_" ++ fabric_id ++ "_ip6s", [⟨.permit, .v6 c, none⟩]⟩] }
          | none => frr4
        let step6 : FrrConfig × Nat := match node.ip with
          | some ip =>
            ({ frr5 with
                routemaps := frr5.routemaps ++
                  [build_openfabric_routemap fabric_id (.v4 ip) st.routemap_seq],
                protocol_routemaps :=
                  psInsert ⟨false, .openfabric, "pve_openfabric"⟩ frr5.protocol_routemaps },
              st.routemap_seq + 10)
          | none => (frr5, st.routemap_seq)
        let step7 : FrrConfig × Nat := match node.ip6 with
          | some ip6 =>
            ({ step6.1 with
                routemaps := step6.1.routemaps ++
                  [build_openfabric_routemap fabric_id (.v6 ip6) step6.2],
                protocol_routemaps :=
                  psInsert ⟨true, .openfabric, "pve_openfabric6"⟩ step6.1.protocol_routemaps },
              step6.2 + 10)
          | none => step6
        .ok ⟨step7.2, st.current_router_id, some net, step7.1⟩
  | .ospf ospf_entry =>
    match mapLookup current_node ospf_entry.nodes with
    | none => .ok st
    | some node =>
      (match st.current_router_id with
       | some r => Except.ok r
       | none =>
         match node.ip with
         | some ip => Except.ok ip
         | none => Except.error FrrError.panicNodeNoIpv4) >>= fun router_id =>
      FrrWord.new (ospf_entry.fabric.properties.area.render) >>= fun frr_word_area =>
      SerArea.new frr_word_area >>= fun frr_area =>
      build_ospf_router router_id >>= fun router =>
      let frr1 := { st.frr with router := amInsert router.1 router.2 st.frr.router }
      build_ospf_dummy_interface fabric_id frr_area >>= fun dummy =>
      let frr2 := { frr1 with interfaces := amInsert dummy.2 dummy.1 frr1.interfaces }
      buildOspfInterfaces frr_area node.properties.interfaces frr2 >>= fun frr3 =>
      (match ospf_entry.fabric.prefix4 with
       | some p => Except.ok p
       | none => Except.error FrrError.panicFabricNoPrefix) >>= fun pfx =>
      let frr4 : FrrConfig := { frr3 with access_lists := frr3.access_lists ++
          [⟨"pve_ospf_" ++ fabric_id ++ "_ips", [⟨.permit, .v4 pfx, none⟩]⟩] }
      (match node.ip with
       | some ip => Except.ok ip
       | none => Except.error FrrError.panicNodeNoIpv4) >>= fun node_ip =>
      build_ospf_dummy_routemap fabric_id node_ip st.routemap_seq >>= fun rm =>
      let frr5 := { frr4 with
        routemaps := frr4.routemaps ++ [rm],
        protocol_routemaps := psInsert ⟨false, .ospf, "pve_ospf"⟩ frr4.protocol_routemaps }
      .ok ⟨st.routemap_seq + 10, some router_id, st.current_net, frr5⟩

/-- The entry loop of build_fabric over the configuration map. -/
def buildFabricLoop (current_node : String) :
    List (String × FabricEntry) → BuildState → Except FrrError BuildState
  | [], st => .ok st
  | (fabric_id, entry) :: rest, st =>
    buildFabricEntry current_node fabric_id entry st >>= fun st' =>
    buildFabricLoop current_node rest st'

/-- build_fabric (frr.rs): iterate over the validated configuration
with the sequence counter starting at 100 and both caches empty,
appending into the passed FrrConfig accumulator. -/
def build_fabric (current_node : String) (config : FabricConfig)
    (frr_config : FrrConfig) : Except FrrError FrrConfig :=
  (buildFabricLoop current_node config.fabrics ⟨100, none, none, frr_config⟩).map
    (fun st => st.frr)

/-- Whether the current node has a node section in the entry (the
node_section lookup that the compiler skips on). -/
def participates (current_node : String) : FabricEntry → Bool
  | .openfabric e => (mapLookup current_node e.nodes).isSome
  | .ospf e => (mapLookup current_node e.nodes).isSome

/-- Whether the entry is an OSPF fabric in which the current node has
a node section. -/
def participatesOspf (current_node : String) : FabricEntry → Bool
  | .ospf e => (mapLookup current_node e.nodes).isSome
  | _ => false

/-- Whether the entry is an OpenFabric fabric in which the current
node has a node section. -/
def participatesOpenfabric (current_node : String) : FabricEntry → Bool
  | .openfabric e => (mapLookup current_node e.nodes).isSome
  | _ => false

/-- The IPv4 address of the current node in the first OSPF fabric (in
iteration order) containing a node section for it. -/
def firstOspfIp (current_node : String) : List (String × FabricEntry) → Option Nat
  | [] => none
  | (_, FabricEntry.ospf e) :: rest =>
    match mapLookup current_node e.nodes with
    | some node => node.ip
    | none => firstOspfIp current_node rest
  | (_, FabricEntry.openfabric _) :: rest => firstOspfIp current_node rest

/-- The NET derived from the current node's addresses in the first
OpenFabric fabric (in iteration order) containing a node section for
it: from the IPv4 address when set, else from the IPv6 address. -/
def firstOpenfabricNet (current_node : String) :
    List (String × FabricEntry) → Option Net
  | [] => none
  | (_, FabricEntry.openfabric e) :: rest =>
    match mapLookup current_node e.nodes with
    | some node =>
      (match node.ip, node.ip6 with
       | some ip, _ => some (Net.fromIpv4 ip)
       | _, some ip6 => some (Net.fromIpv6 ip6)
       | _, _ => none)
    | none => firstOpenfabricNet current_node rest
  | (_, FabricEntry.ospf _) :: rest => firstOpenfabricNet current_node rest

/-- A validated two-OpenFabric-fabric configuration in which the node
pve has address 10.0.0.1 in fabric f1 and 10.0.1.1 in fabric f2. -/
def sampleCfgC4 : FabricConfig := ⟨[
  ("f1", .openfabric ⟨⟨"f1", some ⟨0x0A000000, 24⟩, none, ⟨none, none⟩⟩,
    [("pve", ⟨⟨"f1", "pve"⟩, some 0x0A000001, none, ⟨[]⟩⟩)]⟩),
  ("f2", .openfabric ⟨⟨"f2", some ⟨0x0A000100, 24⟩, none, ⟨none, none⟩⟩,
    [("pve", ⟨⟨"f2", "pve"⟩, some 0x0A000101, none, ⟨[]⟩⟩)]⟩)]⟩

/-- A validated configuration with two OSPF fabrics (areas 0 and 1)
and one OpenFabric fabric, all containing the node pve. -/
def sampleCfgC5 : FabricConfig := ⟨[
  ("f1", .ospf ⟨⟨"f1", some ⟨0x0A000000, 24⟩, none, ⟨.number 0⟩⟩,
    [("pve", ⟨⟨"f1", "pve"⟩, some 0x0A000005, none, ⟨[]⟩⟩)]⟩),
  ("f2", .ospf ⟨⟨"f2", some ⟨0x0A000100, 24⟩, none, ⟨.number 1⟩⟩,
    [("pve", ⟨⟨"f2", "pve"⟩, some 0x0A000105, none, ⟨[]⟩⟩)]⟩)]⟩

/-- The router id selected by the OSPF branch: the cached one when
present, otherwise the IPv4 address of the node section. -/
def deriveRid (cur : Option Nat) (node : NodeSection OspfNodeProperties) : Option Nat :=
  match cur with
  | some r => some r
  | none => node.ip

/-- The NET selected by the OpenFabric branch: the cached one when
present, otherwise derived from the IPv4 address of the node section
when set, else from its IPv6 address. -/
def deriveNet (cur : Option Net) (node : NodeSection OpenfabricNodeProperties) : Option Net :=
  match cur with
  | some n => some n
  | none =>
    match node.ip, node.ip6 with
    | some ip, _ => some (Net.fromIpv4 ip)
    | _, some ip6 => some (Net.fromIpv6 ip6)
    | _, _ => none

/-- Tie between the cached router id and the OSPF router record of the
accumulator: the record exists exactly when the cache is set, and then
carries the cached id. -/
def ospfTie (st : BuildState) : Prop :=
  match st.current_router_id with
  | none => amLookup SerRouterName.ospf st.frr.router = none
  | some r => amLookup SerRouterName.ospf st.frr.router = some (SerRouter.ospf ⟨r⟩)

theorem contains_iff_div (w : Nat) (c : Cidr) (x : Nat)
    (ha : c.addr < 2 ^ w) (hx : x < 2 ^ w) :
    c.contains_address w x = true ↔
      x / 2 ^ (w - c.mask) = c.addr / 2 ^ (w - c.mask) := by
  unfold Cidr.contains_address checkedShr
  by_cases h : w - c.mask < w
  · simp only [h, if_true, Option.getD_some, beq_iff_eq, Nat.shiftRight_eq_div_pow]
    exact ⟨fun h => h.symm, fun h => h.symm⟩
  · have hge : 2 ^ w ≤ 2 ^ (w - c.mask) := Nat.pow_le_pow_right (by norm_num) (by omega)
    simp only [h, if_false, Option.getD_none, beq_self_eq_true, true_iff]
    rw [Nat.div_eq_of_lt (lt_of_lt_of_le hx hge),
      Nat.div_eq_of_lt (lt_of_lt_of_le ha hge)]

theorem div_eq_div_iff_mem (d b x : Nat) (hd : 0 < d) (hdvd : d ∣ b) :
    x / d = b / d ↔ b ≤ x ∧ x < b + d := by
  obtain ⟨q, rfl⟩ := hdvd
  rw [Nat.mul_div_cancel_left q hd]
  constructor
  · intro hq
    have h1 := Nat.div_add_mod x d
    rw [hq] at h1
    have h2 := Nat.mod_lt x hd
    omega
  · rintro ⟨h1, h2⟩
    rw [show x = (x - d * q) + d * q by omega, Nat.add_mul_div_left _ _ hd,
      Nat.div_eq_of_lt (by omega)]
    omega

theorem tz_dvd (w n : Nat) : 2 ^ trailingZeros w n ∣ n := by
  have h := Nat.findGreatest_spec (P := fun k => n % 2 ^ k = 0) (Nat.zero_le w)
    (by simp [Nat.mod_one])
  exact Nat.dvd_of_mod_eq_zero h

theorem tz_le (w n : Nat) : trailingZeros w n ≤ w := Nat.findGreatest_le w

theorem le_tz (w n k : Nat) (hk : k ≤ w) (h : 2 ^ k ∣ n) : k ≤ trailingZeros w n :=
  Nat.le_findGreatest hk ((Nat.mod_eq_zero_of_dvd h))

theorem toCidrsLoop_pos (w last current : Nat) (h : current ≤ last) :
    toCidrsLoop w last current =
      Cidr.mk current (nmask w last current) ::
        (if 2 ^ w - 1 < current + 2 ^ (w - nmask w last current) then []
         else toCidrsLoop w last (current + 2 ^ (w - nmask w last current))) := by
  rw [toCidrsLoop, dif_pos h]
  rfl

theorem toCidrsLoop_neg (w last current : Nat) (h : ¬ current ≤ last) :
    toCidrsLoop w last current = [] := by
  rw [toCidrsLoop, dif_neg h]

section LoopFacts

variable {w last current : Nat}

theorem shift_eq (hcl : current ≤ last) (hlen : last + 1 - current < 2 ^ w) :
    w - nmask w last current =
      min (trailingZeros w current) (Nat.log2 (last - current + 1)) := by
  have h1 := tz_le w current
  have h2 : Nat.log2 (last - current + 1) < w := by
    rw [Nat.log2_lt (by omega)]; omega
  unfold nmask; omega

theorem nmask_pos (hcl : current ≤ last) (hlen : last + 1 - current < 2 ^ w) :
    1 ≤ nmask w last current := by
  have h2 : Nat.log2 (last - current + 1) < w := by
    rw [Nat.log2_lt (by omega)]; omega
  unfold nmask; omega

theorem nmask_le (hcl : current ≤ last) (hlen : last + 1 - current < 2 ^ w) :
    nmask w last current ≤ w := by
  have h2 : Nat.log2 (last - current + 1) < w := by
    rw [Nat.log2_lt (by omega)]; omega
  unfold nmask; omega

theorem delta_dvd (hcl : current ≤ last) (hlen : last + 1 - current < 2 ^ w) :
    2 ^ (w - nmask w last current) ∣ current := by
  rw [shift_eq hcl hlen]
  exact dvd_trans (pow_dvd_pow 2 (min_le_left _ _)) (tz_dvd w current)

theorem delta_le_len (hcl : current ≤ last) (hlen : last + 1 - current < 2 ^ w) :
    2 ^ (w - nmask w last current) ≤ last + 1 - current := by
  rw [shift_eq hcl hlen]
  calc 2 ^ min (trailingZeros w current) (Nat.log2 (last - current + 1))
      ≤ 2 ^ Nat.log2 (last - current + 1) :=
        Nat.pow_le_pow_right (by norm_num) (min_le_right _ _)
    _ ≤ last - current + 1 := Nat.log2_self_le (by omega)
    _ = last + 1 - current := by omega

/-- Merged unfolding: the overflow break and the loop guard exit
produce the same list, so the loop, under its preconditions, appends
the emitted block and recurses exactly when the block does not reach
last. -/
theorem toCidrsLoop_eq (hcl : current ≤ last) (hl : last < 2 ^ w)
    (hlen : last + 1 - current < 2 ^ w) :
    toCidrsLoop w last current =
      Cidr.mk current (nmask w last current) ::
        (if current + 2 ^ (w - nmask w last current) ≤ last
         then toCidrsLoop w last (current + 2 ^ (w - nmask w last current))
         else []) := by
  rw [toCidrsLoop_pos w last current hcl]
  by_cases ho : 2 ^ w - 1 < current + 2 ^ (w - nmask w last current)
  · rw [if_pos ho, if_neg (by omega)]
  · rw [if_neg ho]
    by_cases hr : current + 2 ^ (w - nmask w last current) ≤ last
    · rw [if_pos hr]
    · rw [if_neg hr, toCidrsLoop_neg w last _ hr]

end LoopFacts

/-- Membership in the dyadic block of an aligned, in-bounds CIDR. -/
theorem block_mem_iff (w : Nat) (c : Cidr) (ha : c.addr < 2 ^ w)
    (hdvd : 2 ^ (w - c.mask) ∣ c.addr) (x : Nat) (hx : x < 2 ^ w) :
    c.contains_address w x = true ↔
      c.addr ≤ x ∧ x < c.addr + 2 ^ (w - c.mask) := by
  rw [contains_iff_div w c x ha hx,
    div_eq_div_iff_mem _ _ _ (Nat.pos_pow_of_pos _ (by norm_num)) hdvd]

theorem toCidrsLoop_spec (w last : Nat) :
    ∀ n current, last + 1 - current = n → current ≤ last → last < 2 ^ w →
    last + 1 - current < 2 ^ w →
    LoopSpec w last current (toCidrsLoop w last current) := by
  intro n
  induction n using Nat.strong_induction_on with
  | _ n ih =>
    intro current hn hcl hl hlen
    have hcur : current < 2 ^ w := by omega
    have hdpos : 0 < 2 ^ (w - nmask w last current) :=
      Nat.pos_pow_of_pos _ (by norm_num)
    have hdle := delta_le_len hcl hlen
    have hdvd := delta_dvd hcl hlen
    have hm1 := nmask_pos hcl hlen
    have hmw := nmask_le hcl hlen
    have hhead := block_mem_iff w (Cidr.mk current (nmask w last current)) hcur hdvd
    rw [toCidrsLoop_eq hcl hl hlen]
    by_cases hrec : current + 2 ^ (w - nmask w last current) ≤ last
    · rw [if_pos hrec]
      obtain ⟨ih1, ih2, ih3⟩ := ih (last + 1 - (current + 2 ^ (w - nmask w last current)))
        (by omega) _ rfl (by omega) hl (by omega)
      refine ⟨?_, ?_, ?_⟩
      · intro x hx
        constructor
        · rintro ⟨c, hc, hcx⟩
          rcases List.mem_cons.mp hc with rfl | hc
          · have := (hhead x hx).mp hcx
            dsimp only at this
            omega
          · have := (ih1 x hx).mp ⟨c, hc, hcx⟩
            omega
        · intro hx2
          by_cases hsplit : x < current + 2 ^ (w - nmask w last current)
          · exact ⟨_, List.mem_cons_self _ _, (hhead x hx).mpr (by dsimp only; omega)⟩
          · obtain ⟨c, hc, hcx⟩ := (ih1 x hx).mpr (by omega)
            exact ⟨c, List.mem_cons_of_mem _ hc, hcx⟩
      · intro c hc
        rcases List.mem_cons.mp hc with rfl | hc
        · dsimp only
          refine ⟨hm1, hmw, hcur, hdvd, le_refl _, by omega⟩
        · have := ih2 c hc
          exact ⟨this.1, this.2.1, this.2.2.1, this.2.2.2.1, by omega, this.2.2.2.2.2⟩
      · rw [List.pairwise_cons]
        refine ⟨?_, ih3⟩
        intro c hc
        have := (ih2 c hc).2.2.2.2.1
        dsimp only
        omega
    · rw [if_neg hrec]
      have hend : current + 2 ^ (w - nmask w last current) = last + 1 := by omega
      refine ⟨?_, ?_, ?_⟩
      · intro x hx
        constructor
        · rintro ⟨c, hc, hcx⟩
          rcases List.mem_cons.mp hc with rfl | hc
          · have := (hhead x hx).mp hcx
            dsimp only at this
            omega
          · simp at hc
        · intro hx2
          exact ⟨_, List.mem_cons_self _ _, (hhead x hx).mpr (by dsimp only; omega)⟩
      · intro c hc
        rcases List.mem_cons.mp hc with rfl | hc
        · refine ⟨hm1, hmw, hcur, hdvd, le_refl _, ?_⟩
          dsimp only
          omega
        · simp at hc
      · simp

/-- Any CIDR contains its own (possibly unaligned) address. -/
theorem contains_self (w : Nat) (c : Cidr) :
    c.contains_address w c.addr = true := by
  unfold Cidr.contains_address
  exact beq_self_eq_true _

/-- Dyadic nesting: if two CIDRs both contain some address and the
first has the smaller or equal block size, the block of the first is
contained in the block of the second. -/
theorem contains_nested (w : Nat) (c d : Cidr) (x : Nat)
    (hc : c.addr < 2 ^ w) (hd : d.addr < 2 ^ w) (hx : x < 2 ^ w)
    (hcx : c.contains_address w x = true) (hdx : d.contains_address w x = true)
    (hle : w - c.mask ≤ w - d.mask) :
    ∀ y, y < 2 ^ w → c.contains_address w y = true → d.contains_address w y = true := by
  intro y hy hcy
  rw [contains_iff_div w c x hc hx] at hcx
  rw [contains_iff_div w d x hd hx] at hdx
  rw [contains_iff_div w c y hc hy] at hcy
  rw [contains_iff_div w d y hd hy]
  have hpow : 2 ^ (w - c.mask) * 2 ^ (w - d.mask - (w - c.mask)) = 2 ^ (w - d.mask) := by
    rw [← pow_add]
    congr 1
    omega
  calc y / 2 ^ (w - d.mask)
      = y / 2 ^ (w - c.mask) / 2 ^ (w - d.mask - (w - c.mask)) := by
        rw [Nat.div_div_eq_div_mul, hpow]
    _ = x / 2 ^ (w - c.mask) / 2 ^ (w - d.mask - (w - c.mask)) := by rw [hcy, hcx]
    _ = x / 2 ^ (w - d.mask) := by rw [Nat.div_div_eq_div_mul, hpow]
    _ = d.addr / 2 ^ (w - d.mask) := hdx

/-- A CIDR that contains the left endpoint of an interval and whose
contained set lies inside the interval is the aligned block starting
exactly at that endpoint. -/
theorem anchored_block (w last cur : Nat) (c : Cidr)
    (hcw : cur < 2 ^ w) (hmask : c.mask ≤ w) (haddr : c.addr < 2 ^ w)
    (hcontains : c.contains_address w cur = true)
    (hsub : ∀ x, x < 2 ^ w → c.contains_address w x = true → cur ≤ x ∧ x ≤ last) :
    2 ^ (w - c.mask) ∣ cur ∧ cur + 2 ^ (w - c.mask) ≤ last + 1 ∧
      (∀ x, x < 2 ^ w →
        (c.contains_address w x = true ↔ cur ≤ x ∧ x < cur + 2 ^ (w - c.mask))) := by
  set d := 2 ^ (w - c.mask) with hdmask
  have hdpos : 0 < d := Nat.pos_pow_of_pos _ (by norm_num)
  set q := c.addr / d with hq
  have hble : q * d ≤ c.addr := Nat.div_mul_le_self _ _
  have hblt : q * d < 2 ^ w := lt_of_le_of_lt hble haddr
  have hcontb : c.contains_address w (q * d) = true := by
    rw [contains_iff_div w c _ haddr hblt, Nat.mul_div_cancel _ hdpos]
  have hb1 : cur ≤ q * d := (hsub _ hblt hcontb).1
  have hb2 : q * d ≤ cur := by
    rw [contains_iff_div w c _ haddr hcw] at hcontains
    have := Nat.div_mul_le_self cur d
    rw [hcontains] at this
    exact this
  have hbcur : q * d = cur := le_antisymm hb2 hb1
  have hdvd : d ∣ cur := ⟨q, by rw [Nat.mul_comm d q]; omega⟩
  have hdvdw : d ∣ 2 ^ w := pow_dvd_pow 2 (by omega)
  obtain ⟨K, hK⟩ := hdvdw
  have hK' : K * d = d * K := Nat.mul_comm K d
  have hqK : q < K := by
    by_contra hqK
    push_neg at hqK
    have : K * d ≤ q * d := Nat.mul_le_mul_right d hqK
    omega
  have htop : cur + d ≤ 2 ^ w := by
    have : (q + 1) * d ≤ K * d := Nat.mul_le_mul_right d hqK
    have h2 : (q + 1) * d = q * d + d := by ring
    omega
  have hchar : ∀ x, x < 2 ^ w →
      (c.contains_address w x = true ↔ cur ≤ x ∧ x < cur + d) := by
    intro x hx
    rw [contains_iff_div w c x haddr hx]
    have haq : c.addr / d = cur / d := by
      have h1 : cur / d = q := by
        rw [← hbcur, Nat.mul_div_cancel _ hdpos]
      rw [h1]
    rw [haq, div_eq_div_iff_mem d cur x hdpos hdvd]
  have hlast : cur + d ≤ last + 1 := by
    have hx : cur + d - 1 < 2 ^ w := by omega
    have := (hsub _ hx ((hchar _ hx).mpr (by omega))).2
    omega
  exact ⟨hdvd, hlast, hchar⟩

/-- Every nonempty list has an element maximizing a given measure. -/
theorem exists_max_val {α : Type} (f : α → Nat) :
    ∀ (l : List α), l ≠ [] → ∃ c ∈ l, ∀ d ∈ l, f d ≤ f c := by
  intro l
  induction l with
  | nil => intro h; exact absurd rfl h
  | cons a t ih =>
    intro _
    rcases eq_or_ne t [] with rfl | ht
    · exact ⟨a, List.mem_cons_self _ _, by simp⟩
    · obtain ⟨m, hm, hmax⟩ := ih ht
      by_cases hcmp : f a ≤ f m
      · refine ⟨m, List.mem_cons_of_mem _ hm, ?_⟩
        intro d hd
        rcases List.mem_cons.mp hd with rfl | hd
        · exact hcmp
        · exact hmax d hd
      · refine ⟨a, List.mem_cons_self _ _, ?_⟩
        intro d hd
        rcases List.mem_cons.mp hd with rfl | hd
        · exact le_refl _
        · exact le_trans (hmax d hd) (by omega)

/-- Removing at least one element via filter strictly shrinks a list. -/
theorem length_filter_lt {α : Type} (p : α → Bool) (l : List α) (a : α)
    (ha : a ∈ l) (hpa : p a = false) : (l.filter p).length < l.length := by
  induction l with
  | nil => simp at ha
  | cons b t ih =>
    rcases List.mem_cons.mp ha with rfl | ha
    · simp only [List.filter_cons, hpa, Bool.false_eq_true, if_false, List.length_cons]
      have := List.length_filter_le p t
      omega
    · by_cases hpb : p b = true
      · simp only [List.filter_cons, hpb, if_true, List.length_cons]
        have := ih ha
        omega
      · rw [Bool.not_eq_true] at hpb
        simp only [List.filter_cons, hpb, Bool.false_eq_true, if_false, List.length_cons]
        have := ih ha
        omega

theorem tz_eq_of (w n e : Nat) (he : e ≤ w) (hdvd : 2 ^ e ∣ n)
    (hndvd : ¬ 2 ^ (e + 1) ∣ n) : trailingZeros w n = e := by
  have h1 : e ≤ trailingZeros w n := le_tz w n e he hdvd
  by_contra hne
  have h2 : e + 1 ≤ trailingZeros w n := by omega
  exact hndvd (dvd_trans (pow_dvd_pow 2 h2) (tz_dvd w n))

theorem loopLen_step {w last current : Nat} (hcl : current ≤ last)
    (hl : last < 2 ^ w) (hlen : last + 1 - current < 2 ^ w) :
    (toCidrsLoop w last current).length =
      1 + (toCidrsLoop w last (current + 2 ^ (w - nmask w last current))).length := by
  rw [toCidrsLoop_eq hcl hl hlen]
  by_cases hrec : current + 2 ^ (w - nmask w last current) ≤ last
  · rw [if_pos hrec]
    simp only [List.length_cons]
    omega
  · rw [if_neg hrec, toCidrsLoop_neg w last _ hrec]
    simp

/-- Choosing any allowed (aligned, fitting) first block that may be
smaller than the greedy one never shortens the greedy decomposition of
the remainder by more than the one block saved. -/
theorem greedy_first (w last : Nat) :
    ∀ k cur e, (w - nmask w last cur) - e = k →
    cur ≤ last → last < 2 ^ w → last + 1 - cur < 2 ^ w →
    e ≤ w → 2 ^ e ∣ cur → cur + 2 ^ e ≤ last + 1 →
    (toCidrsLoop w last cur).length ≤ 1 + (toCidrsLoop w last (cur + 2 ^ e)).length := by
  intro k
  induction k using Nat.strong_induction_on with
  | _ k ih =>
    intro cur e hk hcl hl hlen hew hdvd hfit
    have hpos_e : 0 < 2 ^ e := Nat.pos_pow_of_pos _ (by norm_num)
    have hs : e ≤ w - nmask w last cur := by
      rw [shift_eq hcl hlen]
      refine le_min (le_tz w cur e hew hdvd) ?_
      rw [Nat.le_log2 (by omega)]
      omega
    rcases eq_or_lt_of_le hs with heq | hlt
    · have hstep := loopLen_step hcl hl hlen
      rw [← heq] at hstep
      omega
    · have hdvd1 : 2 ^ (e + 1) ∣ cur :=
        dvd_trans (pow_dvd_pow 2 hlt) (delta_dvd hcl hlen)
      have hdelta_len := delta_le_len hcl hlen
      have h2e1 : 2 ^ (e + 1) ≤ 2 ^ (w - nmask w last cur) :=
        Nat.pow_le_pow_right (by norm_num) hlt
      have h2e : (2:Nat) ^ (e + 1) = 2 ^ e + 2 ^ e := by
        rw [pow_succ]; ring
      have hfit' : cur + 2 ^ e ≤ last := by omega
      have htz : trailingZeros w (cur + 2 ^ e) = e := by
        apply tz_eq_of w _ e hew (dvd_add (dvd_trans (pow_dvd_pow 2 (by omega)) hdvd1) (dvd_refl _))
        intro hcon
        have hd2 : (2:Nat) ^ (e + 1) ∣ 2 ^ e := (Nat.dvd_add_right hdvd1).mp hcon
        have := Nat.le_of_dvd hpos_e hd2
        omega
      have hlen2 : last + 1 - (cur + 2 ^ e) < 2 ^ w := by omega
      have hshift2 : w - nmask w last (cur + 2 ^ e) = e := by
        rw [shift_eq hfit' hlen2, htz]
        have hlen' : (2:Nat) ^ e ≤ last - (cur + 2 ^ e) + 1 := by omega
        have := (Nat.le_log2 (n := last - (cur + 2 ^ e) + 1) (by omega)).mpr hlen'
        omega
      have hstep2 := loopLen_step hfit' hl hlen2
      rw [hshift2] at hstep2
      have hrw : cur + 2 ^ e + 2 ^ e = cur + 2 ^ (e + 1) := by omega
      rw [hrw] at hstep2
      have hih := ih ((w - nmask w last cur) - (e + 1)) (by omega) cur (e + 1) rfl
        hcl hl hlen (by omega) hdvd1 (by omega)
      omega

/-- Greedy optimality: every list of valid CIDRs whose union is exactly
the interval from cur to last has at least as many elements as the
greedy loop emits. -/
theorem greedy_min (w last : Nat) :
    ∀ n cur, last + 1 - cur = n → cur ≤ last → last < 2 ^ w →
    last + 1 - cur < 2 ^ w →
    ∀ M : List Cidr, (∀ c ∈ M, c.mask ≤ w ∧ c.addr < 2 ^ w) →
    (∀ x, x < 2 ^ w → (memCidrs w M x ↔ cur ≤ x ∧ x ≤ last)) →
    (toCidrsLoop w last cur).length ≤ M.length := by
  intro n
  induction n using Nat.strong_induction_on with
  | _ n ih =>
    intro cur hn hcl hl hlen M hval hcov
    have hcw : cur < 2 ^ w := by omega
    obtain ⟨c0, hc0M, hc0⟩ := (hcov cur hcw).mpr ⟨le_refl _, hcl⟩
    have hc0M1 : c0 ∈ M.filter (fun c => c.contains_address w cur) :=
      List.mem_filter.mpr ⟨hc0M, hc0⟩
    obtain ⟨cstar, hcsM1, hcsmax⟩ := exists_max_val (fun c => w - c.mask) _
      (List.ne_nil_of_mem hc0M1)
    have hcsM : cstar ∈ M := (List.mem_filter.mp hcsM1).1
    have hcscur : cstar.contains_address w cur = true := (List.mem_filter.mp hcsM1).2
    obtain ⟨hvs1, hvs2⟩ := hval cstar hcsM
    have hsub : ∀ x, x < 2 ^ w → cstar.contains_address w x = true →
        cur ≤ x ∧ x ≤ last := fun x hx hcx => (hcov x hx).mp ⟨cstar, hcsM, hcx⟩
    obtain ⟨hdvd, hfit, hchar⟩ := anchored_block w last cur cstar hcw hvs1 hvs2 hcscur hsub
    have hmax : ∀ c ∈ M, c.contains_address w cur = true →
        w - c.mask ≤ w - cstar.mask := by
      intro c hc hccur
      exact hcsmax c (List.mem_filter.mpr ⟨hc, hccur⟩)
    have hpos : 0 < 2 ^ (w - cstar.mask) := Nat.pos_pow_of_pos _ (by norm_num)
    have hMpos : 0 < M.length := List.length_pos_of_mem hcsM
    by_cases hend : cur + 2 ^ (w - cstar.mask) = last + 1
    · have hs : w - cstar.mask ≤ w - nmask w last cur := by
        rw [shift_eq hcl hlen]
        refine le_min (le_tz w cur _ (by omega) hdvd) ?_
        rw [Nat.le_log2 (by omega)]
        omega
      have h1 := delta_le_len hcl hlen
      have hs2 : w - nmask w last cur ≤ w - cstar.mask := by
        have h2 : (2:Nat) ^ (w - nmask w last cur) ≤ 2 ^ (w - cstar.mask) := by omega
        exact (Nat.pow_le_pow_iff_right (by norm_num)).mp h2
      have hse : w - nmask w last cur = w - cstar.mask := le_antisymm hs2 hs
      have hstep := loopLen_step hcl hl hlen
      rw [hse, hend] at hstep
      rw [toCidrsLoop_neg w last (last + 1) (by omega)] at hstep
      simp at hstep
      omega
    · have hfit' : cur + 2 ^ (w - cstar.mask) ≤ last := by omega
      -- inner facts: where elements of M with address inside resp.
      -- outside the anchored block can reach
      have hinner : ∀ c ∈ M, cstar.contains_address w c.addr = true →
          ∀ x, x < 2 ^ w → c.contains_address w x = true →
          x < cur + 2 ^ (w - cstar.mask) := by
        intro c hc hin x hx hcx
        obtain ⟨hvc1, hvc2⟩ := hval c hc
        by_cases hcmp : w - c.mask ≤ w - cstar.mask
        · have := contains_nested w c cstar c.addr hvc2 hvs2 hvc2
            (contains_self w c) hin hcmp x hx hcx
          exact ((hchar x hx).mp this).2
        · push_neg at hcmp
          have hccur : c.contains_address w cur = true :=
            contains_nested w cstar c c.addr hvs2 hvc2 hvc2 hin
              (contains_self w c) (by omega) cur hcw hcscur
          have := hmax c hc hccur
          omega
      have houter : ∀ c ∈ M, cstar.contains_address w c.addr = false →
          ∀ x, x < 2 ^ w → c.contains_address w x = true →
          cur + 2 ^ (w - cstar.mask) ≤ x := by
        intro c hc hout x hx hcx
        obtain ⟨hvc1, hvc2⟩ := hval c hc
        by_contra hxlt
        push_neg at hxlt
        have hxcur : cur ≤ x := ((hcov x hx).mp ⟨c, hc, hcx⟩).1
        have hxstar : cstar.contains_address w x = true :=
          (hchar x hx).mpr ⟨hxcur, hxlt⟩
        by_cases hcmp : w - c.mask ≤ w - cstar.mask
        · have := contains_nested w c cstar x hvc2 hvs2 hx hcx hxstar hcmp
            c.addr hvc2 (contains_self w c)
          simp [this] at hout
        · push_neg at hcmp
          have hccur : c.contains_address w cur = true :=
            contains_nested w cstar c x hvs2 hvc2 hx hxstar hcx (by omega) cur hcw hcscur
          have := hmax c hc hccur
          omega
      have hcov2 : ∀ x, x < 2 ^ w →
          (memCidrs w (M.filter (fun c => ! cstar.contains_address w c.addr)) x ↔
            cur + 2 ^ (w - cstar.mask) ≤ x ∧ x ≤ last) := by
        intro x hx
        constructor
        · rintro ⟨c, hcM2, hcx⟩
          obtain ⟨hcM, hcp⟩ := List.mem_filter.mp hcM2
          rw [Bool.not_eq_true'] at hcp
          exact ⟨houter c hcM hcp x hx hcx, ((hcov x hx).mp ⟨c, hcM, hcx⟩).2⟩
        · rintro ⟨hx1, hx2⟩
          obtain ⟨c, hcM, hcx⟩ := (hcov x hx).mpr ⟨by omega, hx2⟩
          refine ⟨c, List.mem_filter.mpr ⟨hcM, ?_⟩, hcx⟩
          rw [Bool.not_eq_true']
          by_contra hcon
          rw [Bool.not_eq_false] at hcon
          have := hinner c hcM hcon x hx hcx
          omega
      have hlenM2 : (M.filter (fun c => ! cstar.contains_address w c.addr)).length
          < M.length := by
        apply length_filter_lt _ M cstar hcsM
        simp [contains_self]
      have hih := ih (last + 1 - (cur + 2 ^ (w - cstar.mask))) (by omega)
        (cur + 2 ^ (w - cstar.mask)) rfl hfit' hl (by omega)
        (M.filter (fun c => ! cstar.contains_address w c.addr))
        (fun c hc => hval c (List.mem_filter.mp hc).1) hcov2
      have hga := greedy_first w last ((w - nmask w last cur) - (w - cstar.mask)) cur
        (w - cstar.mask) rfl hcl hl hlen (by omega) hdvd (by omega)
      omega

/-- A CIDR whose mask equals the width contains exactly its address. -/
theorem contains_mask_width (w a x : Nat) (hw : 1 ≤ w) :
    (Cidr.mk a w).contains_address w x = true ↔ x = a := by
  have h0 : 0 < w := by omega
  unfold Cidr.contains_address checkedShr
  simp only [Nat.sub_self, h0, if_true, Option.getD_some, Nat.shiftRight_zero, beq_iff_eq]
  exact ⟨fun h => h.symm, fun h => h.symm⟩

/-- A CIDR with mask 0 contains every address: the checked shift by the
full width fails on both sides and both are replaced by 0. -/
theorem contains_mask_zero (w n x : Nat) :
    (Cidr.mk n 0).contains_address w x = true := by
  unfold Cidr.contains_address checkedShr
  simp

/-- Membership-aware Pairwise implication. -/
theorem pairwise_imp_mem {α : Type} {R S : α → α → Prop} :
    ∀ (l : List α), (∀ a ∈ l, ∀ b ∈ l, R a b → S a b) → l.Pairwise R → l.Pairwise S := by
  intro l
  induction l with
  | nil => intro _ _; exact List.Pairwise.nil
  | cons a t ih =>
    intro h hp
    rw [List.pairwise_cons] at hp ⊢
    refine ⟨?_, ih ?_ hp.2⟩
    · intro b hb
      exact h a (List.mem_cons_self _ _) b (List.mem_cons_of_mem _ hb) (hp.1 b hb)
    · intro x hx y hy
      exact h x (List.mem_cons_of_mem _ hx) y (List.mem_cons_of_mem _ hy)

/-- C8: a CIDR with prefix length equal to the address width (32 for
IPv4, 128 for IPv6) and network address a contains exactly a, and a
CIDR with prefix length 0 contains every address of its family; the
prefix-0 case goes through the failed checked shift being replaced by
0 rather than an out-of-range shift. -/
theorem c8_contains_full_and_zero :
    (∀ a x : Nat, (Cidr.mk a 32).contains_address 32 x = true ↔ x = a) ∧
    (∀ a x : Nat, (Cidr.mk a 128).contains_address 128 x = true ↔ x = a) ∧
    (∀ n x : Nat, (Cidr.mk n 0).contains_address 32 x = true) ∧
    (∀ n x : Nat, (Cidr.mk n 0).contains_address 128 x = true) :=
  ⟨fun a x => contains_mask_width 32 a x (by norm_num),
   fun a x => contains_mask_width 128 a x (by norm_num),
   fun n x => contains_mask_zero 32 n x,
   fun n x => contains_mask_zero 128 n x⟩

/-- C7: to_cidrs terminates: the degenerate single-address range and
the full-address-space range return immediately as one CIDR (prefix =
width resp. prefix 0); otherwise every loop iteration emits a block of
positive size 2 ^ (w - netmask) (netmask ≥ 1) by which current
strictly increases, and the checked addition breaks out of the loop
instead of overflowing past the maximum address. -/
theorem c7_to_cidrs_terminates :
    (∀ w a : Nat, AddressRange.to_cidrs w ⟨a, a⟩ = [⟨a, w⟩]) ∧
    (∀ w : Nat, AddressRange.to_cidrs w ⟨0, 2 ^ w - 1⟩ = [⟨0, 0⟩]) ∧
    (∀ w last current : Nat, current ≤ last → last < 2 ^ w →
      last + 1 - current < 2 ^ w →
      1 ≤ nmask w last current ∧ 0 < 2 ^ (w - nmask w last current) ∧
      toCidrsLoop w last current =
        Cidr.mk current (nmask w last current) ::
          (if 2 ^ w - 1 < current + 2 ^ (w - nmask w last current) then []
           else toCidrsLoop w last (current + 2 ^ (w - nmask w last current)))) := by
  refine ⟨?_, ?_, ?_⟩
  · intro w a
    unfold AddressRange.to_cidrs
    rw [if_pos rfl]
  · intro w
    unfold AddressRange.to_cidrs
    dsimp only
    rcases Nat.eq_zero_or_pos w with hw | hw
    · subst hw
      norm_num
    · have h1 : 1 < (2:Nat) ^ w := Nat.one_lt_two_pow (by omega)
      rw [if_neg (by omega), if_pos ⟨rfl, rfl⟩]
  · intro w last current h1 h2 h3
    exact ⟨nmask_pos h1 h3, Nat.pos_pow_of_pos _ (by norm_num),
      toCidrsLoop_pos w last current h1⟩

/-- C1: for every valid range, to_cidrs returns a list of CIDRs whose
union is exactly the closed interval from start to last, pairwise
disjoint, in increasing address order, and of minimal count among all
CIDR lists whose union equals the range; identically for the 32-bit
IPv4 and the 128-bit IPv6 instance. -/
theorem c1_to_cidrs_exact_minimal (w start last : Nat) (hw : w = 32 ∨ w = 128)
    (hsl : start ≤ last) (hlast : last < 2 ^ w) :
    (∀ x, x < 2 ^ w →
      (memCidrs w (AddressRange.to_cidrs w ⟨start, last⟩) x ↔ start ≤ x ∧ x ≤ last)) ∧
    (AddressRange.to_cidrs w ⟨start, last⟩).Pairwise
      (fun c d => ∀ x, x < 2 ^ w →
        ¬(c.contains_address w x = true ∧ d.contains_address w x = true)) ∧
    (AddressRange.to_cidrs w ⟨start, last⟩).Chain' (fun c d => c.addr < d.addr) ∧
    (∀ M : List Cidr, (∀ c ∈ M, c.mask ≤ w ∧ c.addr < 2 ^ w) →
      (∀ x, x < 2 ^ w → (memCidrs w M x ↔ start ≤ x ∧ x ≤ last)) →
      (AddressRange.to_cidrs w ⟨start, last⟩).length ≤ M.length) := by
  have hw1 : 1 ≤ w := by rcases hw with rfl | rfl <;> norm_num
  unfold AddressRange.to_cidrs
  dsimp only
  by_cases hdeg : start = last
  · rw [if_pos hdeg]
    refine ⟨?_, by simp, by simp, ?_⟩
    · intro x hx
      unfold memCidrs
      constructor
      · rintro ⟨c, hc, hcx⟩
        simp only [List.mem_singleton] at hc
        subst hc
        rw [contains_mask_width w start x hw1] at hcx
        omega
      · intro hx2
        refine ⟨⟨start, w⟩, List.mem_singleton_self _, ?_⟩
        rw [contains_mask_width w start x hw1]
        omega
    · intro M hval hcov
      obtain ⟨c, hc, _⟩ := (hcov start (by omega)).mpr ⟨le_refl _, hsl⟩
      have := List.length_pos_of_mem hc
      simp only [List.length_singleton]
      omega
  · rw [if_neg hdeg]
    by_cases hfull : start = 0 ∧ last = 2 ^ w - 1
    · rw [if_pos hfull]
      obtain ⟨hf1, hf2⟩ := hfull
      refine ⟨?_, by simp, by simp, ?_⟩
      · intro x hx
        unfold memCidrs
        constructor
        · rintro ⟨c, hc, _⟩
          simp only [List.mem_singleton] at hc
          omega
        · intro hx2
          exact ⟨⟨0, 0⟩, List.mem_singleton_self _, contains_mask_zero w 0 x⟩
      · intro M hval hcov
        obtain ⟨c, hc, _⟩ := (hcov start (by omega)).mpr ⟨le_refl _, hsl⟩
        have := List.length_pos_of_mem hc
        simp only [List.length_singleton]
        omega
    · rw [if_neg hfull]
      have hlen : last + 1 - start < 2 ^ w := by
        rcases Nat.eq_zero_or_pos start with h0 | h0
        · have : last ≠ 2 ^ w - 1 := fun h => hfull ⟨h0, h⟩
          omega
        · omega
      obtain ⟨hs1, hs2, hs3⟩ := toCidrsLoop_spec w last _ start rfl hsl hlast hlen
      refine ⟨hs1, ?_, ?_, ?_⟩
      · refine pairwise_imp_mem _ ?_ hs3
        intro c hc d hd hord x hx hboth
        obtain ⟨hcx, hdx⟩ := hboth
        have hvc := hs2 c hc
        have hvd := hs2 d hd
        have hb1 := (block_mem_iff w c hvc.2.2.1 hvc.2.2.2.1 x hx).mp hcx
        have hb2 := (block_mem_iff w d hvd.2.2.1 hvd.2.2.2.1 x hx).mp hdx
        omega
      · refine List.Chain'.imp ?_ hs3.chain'
        intro c d h
        have : 0 < 2 ^ (w - c.mask) := Nat.pos_pow_of_pos _ (by norm_num)
        omega
      · intro M hval hcov
        exact greedy_min w last _ start rfl hsl hlast hlen M hval hcov

theorem c1_witness :
    (5:Nat) ≤ 9 ∧ (9:Nat) < 2 ^ 32 ∧
    ((∀ x, x < 2 ^ 32 →
      (memCidrs 32 (AddressRange.to_cidrs 32 ⟨5, 9⟩) x ↔ 5 ≤ x ∧ x ≤ 9)) ∧
    (AddressRange.to_cidrs 32 ⟨5, 9⟩).Pairwise
      (fun c d => ∀ x, x < 2 ^ 32 →
        ¬(c.contains_address 32 x = true ∧ d.contains_address 32 x = true)) ∧
    (AddressRange.to_cidrs 32 ⟨5, 9⟩).Chain' (fun c d => c.addr < d.addr) ∧
    (∀ M : List Cidr, (∀ c ∈ M, c.mask ≤ 32 ∧ c.addr < 2 ^ 32) →
      (∀ x, x < 2 ^ 32 → (memCidrs 32 M x ↔ 5 ≤ x ∧ x ≤ 9)) →
      (AddressRange.to_cidrs 32 ⟨5, 9⟩).length ≤ M.length)) :=
  ⟨by norm_num, by norm_num,
    c1_to_cidrs_exact_minimal 32 5 9 (Or.inl rfl) (by norm_num) (by norm_num)⟩

theorem c7_witness :
    (5:Nat) ≤ 9 ∧ (9:Nat) < 2 ^ 32 ∧ 9 + 1 - 5 < 2 ^ 32 ∧
    (1 ≤ nmask 32 9 5 ∧ 0 < 2 ^ (32 - nmask 32 9 5) ∧
      toCidrsLoop 32 9 5 =
        Cidr.mk 5 (nmask 32 9 5) ::
          (if 2 ^ 32 - 1 < 5 + 2 ^ (32 - nmask 32 9 5) then []
           else toCidrsLoop 32 9 (5 + 2 ^ (32 - nmask 32 9 5)))) :=
  ⟨by norm_num, by norm_num, by norm_num,
    c7_to_cidrs_terminates.2.2 32 9 5 (by norm_num) (by norm_num) (by norm_num)⟩

theorem exceptBind_ok {ε α β : Type} (x : Except ε α) (f : α → Except ε β) (b : β)
    (h : (x >>= f) = .ok b) : ∃ a, x = .ok a ∧ f a = .ok b := by
  cases x with
  | ok a => exact ⟨a, rfl, h⟩
  | error e => simp [Bind.bind, Except.bind] at h

theorem mapLookup_insert_self {V : Type} (k : String) (v : V) (m : List (String × V)) :
    mapLookup k (mapInsert k v m) = some v := by
  induction m with
  | nil => simp [mapInsert, mapLookup]
  | cons p rest ih =>
    obtain ⟨a, b⟩ := p
    by_cases h1 : k = a
    · simp [mapInsert, h1, mapLookup]
    · by_cases h2 : k < a
      · simp [mapInsert, h1, h2, mapLookup]
      · have h3 : ¬ a = k := fun hh => h1 hh.symm
        simp [mapInsert, h1, h2, mapLookup, h3, ih]

theorem mapLookup_insert_ne {V : Type} (k k' : String) (v : V) (m : List (String × V))
    (h : k' ≠ k) : mapLookup k' (mapInsert k v m) = mapLookup k' m := by
  have hkk : ¬ k = k' := fun hh => h hh.symm
  induction m with
  | nil => simp [mapInsert, mapLookup, hkk]
  | cons p rest ih =>
    obtain ⟨a, b⟩ := p
    by_cases h1 : k = a
    · subst h1
      simp [mapInsert, mapLookup, hkk]
    · by_cases h2 : k < a
      · simp [mapInsert, h1, h2, mapLookup, hkk]
      · simp [mapInsert, h1, h2, mapLookup, ih]

/-- C2: a Valid FabricConfig obtained through into_valid or through
from_section_config always wraps a configuration whose validation
succeeds; no constructor path skips validation. -/
theorem c2_valid_witness_invariant :
    (∀ (cfg : FabricConfig) (v : Valid FabricConfig),
      cfg.into_valid = .ok v → v.val.validate = .ok ()) ∧
    (∀ (config : List (String × Section)) (v : Valid FabricConfig),
      FabricConfig.from_section_config config = .ok v → v.val.validate = .ok ()) := by
  have h1 : ∀ (cfg : FabricConfig) (v : Valid FabricConfig),
      cfg.into_valid = .ok v → v.val.validate = .ok () := by
    intro cfg v h
    unfold FabricConfig.into_valid at h
    cases hv : cfg.validate with
    | ok u =>
      rw [hv] at h
      cases h
      exact hv
    | error e =>
      rw [hv] at h
      cases h
  refine ⟨h1, ?_⟩
  intro config v h
  unfold FabricConfig.from_section_config at h
  obtain ⟨fabrics, _, h2⟩ := exceptBind_ok _ _ _ h
  exact h1 _ _ h2

theorem c2_witness :
    FabricConfig.into_valid ⟨[("f1", sampleEntry1)]⟩ =
      .ok ⟨⟨[("f1", sampleEntry1)]⟩⟩ ∧
    (Valid.val (⟨⟨[("f1", sampleEntry1)]⟩⟩ : Valid FabricConfig)).validate = .ok () :=
  ⟨by rfl, c2_valid_witness_invariant.1 ⟨[("f1", sampleEntry1)]⟩ _ (by rfl)⟩

theorem checkPrefix4_ok (f : Fabric) (n : Node) (h : checkPrefix4 f n = .ok ()) :
    (∀ pfx, Fabric.prefix4 f = some pfx →
      ∃ ip, Node.ip n = some ip ∧ pfx.contains_address 32 ip = true) ∧
    (Fabric.prefix4 f = none → Node.ip n = none) := by
  unfold checkPrefix4 at h
  cases hp : Fabric.prefix4 f with
  | none =>
    cases hip : Node.ip n with
    | none =>
      refine ⟨fun pfx hx => ?_, fun _ => rfl⟩
      cases hx
    | some ip =>
      rw [hp, hip] at h
      exact Except.noConfusion h
  | some pfx =>
    cases hip : Node.ip n with
    | none =>
      rw [hp, hip] at h
      exact Except.noConfusion h
    | some ip =>
      rw [hp, hip] at h
      by_cases hc : pfx.contains_address 32 ip = true
      · refine ⟨fun pfx' hx => ?_, fun hx => ?_⟩
        · cases hx
          exact ⟨ip, rfl, hc⟩
        · cases hx
      · rw [Bool.not_eq_true] at hc
        simp [hc] at h

theorem checkPrefix6_ok (f : Fabric) (n : Node) (h : checkPrefix6 f n = .ok ()) :
    (∀ pfx, Fabric.prefix6 f = some pfx →
      ∃ ip, Node.ip6 n = some ip ∧ pfx.contains_address 128 ip = true) ∧
    (Fabric.prefix6 f = none → Node.ip6 n = none) := by
  unfold checkPrefix6 at h
  cases hp : Fabric.prefix6 f with
  | none =>
    cases hip : Node.ip6 n with
    | none =>
      refine ⟨fun pfx hx => ?_, fun _ => rfl⟩
      cases hx
    | some ip =>
      rw [hp, hip] at h
      exact Except.noConfusion h
  | some pfx =>
    cases hip : Node.ip6 n with
    | none =>
      rw [hp, hip] at h
      exact Except.noConfusion h
    | some ip =>
      rw [hp, hip] at h
      by_cases hc : pfx.contains_address 128 ip = true
      · refine ⟨fun pfx' hx => ?_, fun hx => ?_⟩
        · cases hx
          exact ⟨ip, rfl, hc⟩
        · cases hx
      · rw [Bool.not_eq_true] at hc
        simp [hc] at h

theorem validateNodesLoop_ok (fabric : Fabric) :
    ∀ (nodes : List (String × Node)) (ips ip6s : List Nat),
    validateNodesLoop fabric nodes ips ip6s = .ok () →
    ∀ p ∈ nodes, checkPrefix4 fabric p.2 = .ok () ∧ checkPrefix6 fabric p.2 = .ok () := by
  intro nodes
  induction nodes with
  | nil =>
    intro ips ip6s _ p hp
    simp at hp
  | cons q rest ih =>
    obtain ⟨qid, qnode⟩ := q
    intro ips ip6s h p hp
    unfold validateNodesLoop at h
    obtain ⟨u4, h4, h'⟩ := exceptBind_ok _ _ _ h
    obtain ⟨u6, h6, h''⟩ := exceptBind_ok _ _ _ h'
    obtain ⟨ips', _, h3⟩ := exceptBind_ok _ _ _ h''
    obtain ⟨ip6s', _, h5⟩ := exceptBind_ok _ _ _ h3
    obtain ⟨uv, _, h7⟩ := exceptBind_ok _ _ _ h5
    rcases List.mem_cons.mp hp with rfl | hp
    · cases u4
      cases u6
      exact ⟨h4, h6⟩
    · exact ih ips' ip6s' h7 p hp

/-- C3: FabricEntry validation accepts only entries in which, per
address family, every node has an address contained in the fabric
prefix whenever the prefix is present, and no node has an address of a
family without a prefix; on a violating single-node entry the named
errors NodeNoIpForFabricPrefix, NodeIpOutsideFabricRange and
FabricNoIpPrefixForNode are returned. -/
theorem c3_entry_validate_prefix_rules :
    (∀ (e : FabricEntry), e.validate = .ok () →
      ∀ p ∈ e.nodes,
        (∀ pfx, Fabric.prefix4 e.fabric = some pfx →
          ∃ ip, Node.ip p.2 = some ip ∧ pfx.contains_address 32 ip = true) ∧
        (Fabric.prefix4 e.fabric = none → Node.ip p.2 = none) ∧
        (∀ pfx, Fabric.prefix6 e.fabric = some pfx →
          ∃ ip, Node.ip6 p.2 = some ip ∧ pfx.contains_address 128 ip = true) ∧
        (Fabric.prefix6 e.fabric = none → Node.ip6 p.2 = none)) ∧
    (∀ (e : FabricEntry) (node : String × Node) (pfx : Cidr),
      e.nodes = [node] → Fabric.prefix4 e.fabric = some pfx →
      Node.ip node.2 = none →
      e.validate = .error (.nodeNoIpForFabricPrefix (Node.id node.2).render pfx)) ∧
    (∀ (e : FabricEntry) (node : String × Node) (pfx : Cidr) (ip : Nat),
      e.nodes = [node] → Fabric.prefix4 e.fabric = some pfx →
      Node.ip node.2 = some ip → pfx.contains_address 32 ip = false →
      e.validate = .error (.nodeIpOutsideFabricRange ip pfx)) ∧
    (∀ (e : FabricEntry) (node : String × Node) (ip : Nat),
      e.nodes = [node] → Fabric.prefix4 e.fabric = none →
      Node.ip node.2 = some ip →
      e.validate = .error (.fabricNoIpPrefixForNode (Fabric.id e.fabric) ip)) := by
  refine ⟨?_, ?_, ?_, ?_⟩
  · intro e h p hp
    unfold FabricEntry.validate at h
    obtain ⟨u, h1, _⟩ := exceptBind_ok _ _ _ h
    cases u
    have hk := validateNodesLoop_ok e.fabric e.nodes [] [] h1 p hp
    exact ⟨(checkPrefix4_ok _ _ hk.1).1, (checkPrefix4_ok _ _ hk.1).2,
      (checkPrefix6_ok _ _ hk.2).1, (checkPrefix6_ok _ _ hk.2).2⟩
  · intro e node pfx hnodes hp hip
    obtain ⟨nid, n⟩ := node
    have h4 : checkPrefix4 e.fabric n =
        .error (.nodeNoIpForFabricPrefix (Node.id n).render pfx) := by
      unfold checkPrefix4
      rw [hp, hip]
    unfold FabricEntry.validate validateNodesLoop
    rw [hnodes]
    simp only [h4, Bind.bind, Except.bind]
  · intro e node pfx ip hnodes hp hip hc
    obtain ⟨nid, n⟩ := node
    have h4 : checkPrefix4 e.fabric n =
        .error (.nodeIpOutsideFabricRange ip pfx) := by
      unfold checkPrefix4
      rw [hp, hip]
      simp [hc]
    unfold FabricEntry.validate validateNodesLoop
    rw [hnodes]
    simp only [h4, Bind.bind, Except.bind]
  · intro e node ip hnodes hp hip
    obtain ⟨nid, n⟩ := node
    have h4 : checkPrefix4 e.fabric n =
        .error (.fabricNoIpPrefixForNode (Fabric.id e.fabric) ip) := by
      unfold checkPrefix4
      rw [hp, hip]
    unfold FabricEntry.validate validateNodesLoop
    rw [hnodes]
    simp only [h4, Bind.bind, Except.bind]

theorem c3_witness :
    sampleEntry1.validate = .ok () ∧
    (∀ p ∈ sampleEntry1.nodes,
      (∀ pfx, Fabric.prefix4 sampleEntry1.fabric = some pfx →
        ∃ ip, Node.ip p.2 = some ip ∧ pfx.contains_address 32 ip = true) ∧
      (Fabric.prefix4 sampleEntry1.fabric = none → Node.ip p.2 = none) ∧
      (∀ pfx, Fabric.prefix6 sampleEntry1.fabric = some pfx →
        ∃ ip, Node.ip6 p.2 = some ip ∧ pfx.contains_address 128 ip = true) ∧
      (Fabric.prefix6 sampleEntry1.fabric = none → Node.ip6 p.2 = none)) :=
  ⟨by rfl, c3_entry_validate_prefix_rules.1 sampleEntry1 (by rfl)⟩

/-- C10: add_fabric rejects a duplicate fabric id with DuplicateFabric,
and on success stores, under the fabric id, an entry with no nodes
whose fabric is the input with both prefixes canonicalized and all
other fields unchanged, leaving all other keys untouched. -/
theorem c10_add_fabric_canonicalizes :
    (∀ (cfg : FabricConfig) (fabric : Fabric),
      mapContains (Fabric.id fabric) cfg.fabrics = true →
      cfg.add_fabric fabric = .error (.duplicateFabric (Fabric.id fabric))) ∧
    (∀ (cfg : FabricConfig) (fabric : Fabric) (cfg' : FabricConfig),
      cfg.add_fabric fabric = .ok cfg' →
      mapLookup (Fabric.id fabric) cfg'.fabrics =
        some (FabricEntry.fromFabric fabric.withCanonicalPrefixes) ∧
      (∀ k, k ≠ Fabric.id fabric → mapLookup k cfg'.fabrics = mapLookup k cfg.fabrics) ∧
      FabricEntry.nodes (FabricEntry.fromFabric fabric.withCanonicalPrefixes) = []) := by
  have hcanon : ∀ fabric : Fabric,
      (match Fabric.prefix6 (match Fabric.prefix4 fabric with
          | some pfx => Fabric.set_prefix4 fabric (pfx.canonical 32)
          | none => fabric) with
        | some pfx => Fabric.set_prefix6 (match Fabric.prefix4 fabric with
            | some pfx => Fabric.set_prefix4 fabric (pfx.canonical 32)
            | none => fabric) (pfx.canonical 128)
        | none => (match Fabric.prefix4 fabric with
            | some pfx => Fabric.set_prefix4 fabric (pfx.canonical 32)
            | none => fabric)) = fabric.withCanonicalPrefixes := by
    intro fabric
    cases fabric with
    | openfabric s =>
      obtain ⟨i, p4, p6, pr⟩ := s
      cases p4 <;> cases p6 <;> rfl
    | ospf s =>
      obtain ⟨i, p4, p6, pr⟩ := s
      cases p4 <;> cases p6 <;> rfl
  have hid : ∀ fabric : Fabric, Fabric.id fabric.withCanonicalPrefixes = Fabric.id fabric := by
    intro fabric
    cases fabric <;> rfl
  constructor
  · intro cfg fabric hdup
    unfold FabricConfig.add_fabric
    rw [hdup]
    rfl
  · intro cfg fabric cfg' h
    unfold FabricConfig.add_fabric at h
    cases hdup : mapContains (Fabric.id fabric) cfg.fabrics with
    | true =>
      rw [hdup] at h
      exact Except.noConfusion h
    | false =>
      rw [hdup] at h
      simp only [Bool.false_eq_true, if_false] at h
      rw [hcanon fabric] at h
      cases h
      refine ⟨?_, ?_, ?_⟩
      · rw [← hid fabric]
        exact mapLookup_insert_self _ _ _
      · intro k hk
        refine mapLookup_insert_ne _ _ _ _ ?_
        rw [hid fabric]
        exact hk
      · cases fabric <;> rfl

theorem c10_witness :
    mapContains (Fabric.id (Fabric.openfabric ⟨"f1", some ⟨0x0A000001, 24⟩, none, ⟨none, none⟩⟩))
      (FabricConfig.mk []).fabrics = false ∧
    (FabricConfig.mk []).add_fabric
      (Fabric.openfabric ⟨"f1", some ⟨0x0A000001, 24⟩, none, ⟨none, none⟩⟩) =
      .ok ⟨[("f1", FabricEntry.openfabric ⟨⟨"f1", some ⟨0x0A000000, 24⟩, none, ⟨none, none⟩⟩, []⟩)]⟩ ∧
    (mapLookup (Fabric.id (Fabric.openfabric ⟨"f1", some ⟨0x0A000001, 24⟩, none, ⟨none, none⟩⟩))
        (FabricConfig.mk [("f1", FabricEntry.openfabric ⟨⟨"f1", some ⟨0x0A000000, 24⟩, none, ⟨none, none⟩⟩, []⟩)]).fabrics =
      some (FabricEntry.fromFabric (Fabric.openfabric ⟨"f1", some ⟨0x0A000001, 24⟩, none, ⟨none, none⟩⟩).withCanonicalPrefixes) ∧
    (∀ k, k ≠ Fabric.id (Fabric.openfabric ⟨"f1", some ⟨0x0A000001, 24⟩, none, ⟨none, none⟩⟩) →
      mapLookup k (FabricConfig.mk [("f1", FabricEntry.openfabric ⟨⟨"f1", some ⟨0x0A000000, 24⟩, none, ⟨none, none⟩⟩, []⟩)]).fabrics =
        mapLookup k (FabricConfig.mk []).fabrics) ∧
    FabricEntry.nodes (FabricEntry.fromFabric (Fabric.openfabric ⟨"f1", some ⟨0x0A000001, 24⟩, none, ⟨none, none⟩⟩).withCanonicalPrefixes) = []) :=
  ⟨by rfl, by rfl,
    c10_add_fabric_canonicalizes.2 ⟨[]⟩
      (Fabric.openfabric ⟨"f1", some ⟨0x0A000001, 24⟩, none, ⟨none, none⟩⟩)
      ⟨[("f1", FabricEntry.openfabric ⟨⟨"f1", some ⟨0x0A000000, 24⟩, none, ⟨none, none⟩⟩, []⟩)]⟩
      (by rfl)⟩

theorem fabric_strip (e : FabricEntry) :
    (e.stripInterfaces).fabric = e.fabric := by
  cases e <;> rfl

theorem nodes_strip (e : FabricEntry) :
    (e.stripInterfaces).nodes = e.nodes.map (fun p => (p.1, p.2.stripInterfaces)) := by
  cases e with
  | openfabric en =>
    show (en.nodes.map (fun p => (p.1, p.2.stripOpenfabric))).map
        (fun p => (p.1, Node.openfabric p.2)) = _
    rw [List.map_map]
    show _ = (en.nodes.map (fun p => (p.1, Node.openfabric p.2))).map
        (fun p => (p.1, p.2.stripInterfaces))
    rw [List.map_map]
    rfl
  | ospf en =>
    show (en.nodes.map (fun p => (p.1, p.2.stripOspf))).map
        (fun p => (p.1, Node.ospf p.2)) = _
    rw [List.map_map]
    show _ = (en.nodes.map (fun p => (p.1, Node.ospf p.2))).map
        (fun p => (p.1, p.2.stripInterfaces))
    rw [List.map_map]
    rfl

theorem node_ip_strip (n : Node) : (n.stripInterfaces).ip = n.ip := by
  cases n <;> rfl

theorem node_ip6_strip (n : Node) : (n.stripInterfaces).ip6 = n.ip6 := by
  cases n <;> rfl

theorem node_id_strip (n : Node) : (n.stripInterfaces).id = n.id := by
  cases n <;> rfl

theorem node_validate_strip (n : Node) : (n.stripInterfaces).validate = n.validate := by
  cases n <;> rfl

theorem node_names_strip (n : Node) : (n.stripInterfaces).interfaceNames = [] := by
  cases n <;> rfl

theorem checkPrefix4_strip (fabric : Fabric) (n : Node) :
    checkPrefix4 fabric n.stripInterfaces = checkPrefix4 fabric n := by
  unfold checkPrefix4
  rw [node_ip_strip, node_id_strip]

theorem checkPrefix6_strip (fabric : Fabric) (n : Node) :
    checkPrefix6 fabric n.stripInterfaces = checkPrefix6 fabric n := by
  unfold checkPrefix6
  rw [node_ip6_strip, node_id_strip]

theorem validateNodesLoop_strip (fabric : Fabric) :
    ∀ (nodes : List (String × Node)) (ips ip6s : List Nat),
    validateNodesLoop fabric (nodes.map (fun p => (p.1, p.2.stripInterfaces))) ips ip6s =
      validateNodesLoop fabric nodes ips ip6s := by
  intro nodes
  induction nodes with
  | nil => intro ips ip6s; rfl
  | cons q rest ih =>
    obtain ⟨qid, qnode⟩ := q
    intro ips ip6s
    show validateNodesLoop fabric ((qid, qnode.stripInterfaces) ::
      rest.map (fun p => (p.1, p.2.stripInterfaces))) ips ip6s = _
    unfold validateNodesLoop
    rw [checkPrefix4_strip, checkPrefix6_strip, node_ip_strip, node_ip6_strip,
      node_validate_strip]
    cases checkPrefix4 fabric qnode with
    | error e => rfl
    | ok u =>
      cases checkPrefix6 fabric qnode with
      | error e => rfl
      | ok u6 =>
        simp only [Bind.bind, Except.bind]
        cases insertNodeIp (Fabric.id fabric) qnode.ip ips with
        | error e => rfl
        | ok ips' =>
          cases insertNodeIp (Fabric.id fabric) qnode.ip6 ip6s with
          | error e => rfl
          | ok ip6s' =>
            cases qnode.validate with
            | error e => rfl
            | ok uv => exact ih ips' ip6s'

theorem entry_validate_strip (e : FabricEntry) :
    (e.stripInterfaces).validate = e.validate := by
  unfold FabricEntry.validate
  rw [fabric_strip, nodes_strip, validateNodesLoop_strip]

theorem insertOspfArea_strip (e : FabricEntry) (areas : List Nat) :
    insertOspfArea e.stripInterfaces areas = insertOspfArea e areas := by
  cases e <;> rfl

theorem checkNodeInterfaces_ok (nid : String) :
    ∀ (names : List String) (set set' : List (String × String)),
    checkNodeInterfaces nid names set = .ok set' →
    (∀ p, p ∈ set' ↔ p ∈ set ∨ p ∈ names.map (fun nm => (nid, nm))) ∧
    (names.map (fun nm => (nid, nm))).Nodup ∧
    (∀ p ∈ names.map (fun nm => (nid, nm)), p ∉ set) := by
  intro names
  induction names with
  | nil =>
    intro set set' h
    cases h
    exact ⟨fun p => by simp, by simp, by simp⟩
  | cons nm rest ih =>
    intro set set' h
    unfold checkNodeInterfaces at h
    by_cases hmem : (nid, nm) ∈ set
    · rw [if_pos hmem] at h
      exact Except.noConfusion h
    · rw [if_neg hmem] at h
      obtain ⟨hmem', hnd, hfresh⟩ := ih ((nid, nm) :: set) set' h
      refine ⟨?_, ?_, ?_⟩
      · intro p
        rw [hmem' p]
        simp only [List.mem_cons, List.map_cons]
        tauto
      · simp only [List.map_cons, List.nodup_cons]
        refine ⟨?_, hnd⟩
        intro hcon
        exact hfresh _ hcon (List.mem_cons_self _ _)
      · intro p hp
        simp only [List.map_cons, List.mem_cons] at hp
        rcases hp with rfl | hp
        · exact hmem
        · intro hcon
          exact hfresh p hp (List.mem_cons_of_mem _ hcon)

theorem checkEntryInterfaces_ok :
    ∀ (nodes : List (String × Node)) (set set' : List (String × String)),
    checkEntryInterfaces nodes set = .ok set' →
    (∀ p, p ∈ set' ↔ p ∈ set ∨ p ∈ entryPairs nodes) ∧
    (entryPairs nodes).Nodup ∧
    (∀ p ∈ entryPairs nodes, p ∉ set) := by
  intro nodes
  induction nodes with
  | nil =>
    intro set set' h
    cases h
    exact ⟨fun p => by simp [entryPairs], by simp [entryPairs], by simp [entryPairs]⟩
  | cons q rest ih =>
    obtain ⟨qid, qnode⟩ := q
    intro set set' h
    unfold checkEntryInterfaces at h
    obtain ⟨mid, h1, h2⟩ := exceptBind_ok _ _ _ h
    obtain ⟨hm1, hn1, hf1⟩ := checkNodeInterfaces_ok qid _ _ _ h1
    obtain ⟨hm2, hn2, hf2⟩ := ih _ _ h2
    have hpairs : entryPairs ((qid, qnode) :: rest) = nodePairs qid qnode ++ entryPairs rest := rfl
    refine ⟨?_, ?_, ?_⟩
    · intro p
      rw [hm2 p, hm1 p, hpairs]
      simp only [List.mem_append]
      tauto
    · rw [hpairs, List.nodup_append]
      refine ⟨hn1, hn2, ?_⟩
      intro p hp hcon
      exact hf2 p hcon ((hm1 p).mpr (Or.inr hp))
    · rw [hpairs]
      intro p hp
      rcases List.mem_append.mp hp with hp | hp
      · exact hf1 p hp
      · intro hcon
        exact hf2 p hp ((hm1 p).mpr (Or.inl hcon))

theorem checkNodeInterfaces_error (nid : String) :
    ∀ (names : List String) (set : List (String × String)) (err : FabricConfigError),
    checkNodeInterfaces nid names set = .error err → err = .duplicateInterface := by
  intro names
  induction names with
  | nil =>
    intro set err h
    exact Except.noConfusion h
  | cons nm rest ih =>
    intro set err h
    unfold checkNodeInterfaces at h
    by_cases hmem : (nid, nm) ∈ set
    · rw [if_pos hmem] at h
      cases h
      rfl
    · rw [if_neg hmem] at h
      exact ih _ _ h

theorem checkEntryInterfaces_error :
    ∀ (nodes : List (String × Node)) (set : List (String × String)) (err : FabricConfigError),
    checkEntryInterfaces nodes set = .error err → err = .duplicateInterface := by
  intro nodes
  induction nodes with
  | nil =>
    intro set err h
    exact Except.noConfusion h
  | cons q rest ih =>
    obtain ⟨qid, qnode⟩ := q
    intro set err h
    unfold checkEntryInterfaces at h
    cases hc : checkNodeInterfaces qid (Node.interfaceNames qnode) set with
    | error e =>
      rw [hc] at h
      simp only [Bind.bind, Except.bind] at h
      cases h
      exact checkNodeInterfaces_error qid _ _ _ hc
    | ok set1 =>
      rw [hc] at h
      simp only [Bind.bind, Except.bind] at h
      exact ih _ _ h

theorem checkEntryInterfaces_strip (e : FabricEntry) (set : List (String × String)) :
    checkEntryInterfaces (e.stripInterfaces).nodes set = .ok set := by
  rw [nodes_strip]
  induction e.nodes with
  | nil => rfl
  | cons q rest ih =>
    obtain ⟨qid, qnode⟩ := q
    show checkEntryInterfaces ((qid, qnode.stripInterfaces) ::
      rest.map (fun p => (p.1, p.2.stripInterfaces))) set = .ok set
    unfold checkEntryInterfaces
    rw [node_names_strip]
    show (Except.ok set >>= fun s => checkEntryInterfaces
      (rest.map (fun p => (p.1, p.2.stripInterfaces))) s) = .ok set
    simp only [Bind.bind, Except.bind]
    exact ih

theorem validateEntriesLoop_ok :
    ∀ (entries : List (String × FabricEntry)) (set : List (String × String))
      (areas : List Nat),
    validateEntriesLoop entries set areas = .ok () →
    (configPairs entries).Nodup ∧ ∀ p ∈ configPairs entries, p ∉ set := by
  intro entries
  induction entries with
  | nil =>
    intro set areas _
    exact ⟨by simp [configPairs], by simp [configPairs]⟩
  | cons q rest ih =>
    obtain ⟨qid, qe⟩ := q
    intro set areas h
    unfold validateEntriesLoop at h
    obtain ⟨areas', ha, h1⟩ := exceptBind_ok _ _ _ h
    obtain ⟨set', hs, h2⟩ := exceptBind_ok _ _ _ h1
    obtain ⟨uv, hv, h3⟩ := exceptBind_ok _ _ _ h2
    obtain ⟨hm1, hn1, hf1⟩ := checkEntryInterfaces_ok _ _ _ hs
    obtain ⟨hn2, hf2⟩ := ih _ _ h3
    have hpairs : configPairs ((qid, qe) :: rest) = entryPairs qe.nodes ++ configPairs rest := rfl
    rw [hpairs]
    constructor
    · rw [List.nodup_append]
      refine ⟨hn1, hn2, ?_⟩
      intro p hp hcon
      exact hf2 p hcon ((hm1 p).mpr (Or.inr hp))
    · intro p hp
      rcases List.mem_append.mp hp with hp | hp
      · exact hf1 p hp
      · intro hcon
        exact hf2 p hp ((hm1 p).mpr (Or.inl hcon))

theorem validateEntriesLoop_dup :
    ∀ (entries : List (String × FabricEntry)) (set : List (String × String))
      (areas : List Nat),
    validateEntriesLoop (entries.map (fun p => (p.1, p.2.stripInterfaces))) [] areas = .ok () →
    ¬ ((configPairs entries).Nodup ∧ ∀ p ∈ configPairs entries, p ∉ set) →
    validateEntriesLoop entries set areas = .error .duplicateInterface := by
  intro entries
  induction entries with
  | nil =>
    intro set areas _ hdup
    exact absurd ⟨by simp [configPairs], by simp [configPairs]⟩ hdup
  | cons q rest ih =>
    obtain ⟨qid, qe⟩ := q
    intro set areas hok hdup
    have hstrip : validateEntriesLoop
        (((qid, qe) :: rest).map (fun p => (p.1, p.2.stripInterfaces))) [] areas =
        (insertOspfArea qe.stripInterfaces areas >>= fun areas' =>
         checkEntryInterfaces (qe.stripInterfaces).nodes [] >>= fun set' =>
         (qe.stripInterfaces).validate >>= fun _ =>
         validateEntriesLoop (rest.map (fun p => (p.1, p.2.stripInterfaces))) set' areas') := rfl
    rw [hstrip] at hok
    rw [insertOspfArea_strip, checkEntryInterfaces_strip, entry_validate_strip] at hok
    obtain ⟨areas', ha, hok1⟩ := exceptBind_ok _ _ _ hok
    obtain ⟨set0, hs0, hok2⟩ := exceptBind_ok _ _ _ hok1
    cases hs0
    obtain ⟨uv, hv, hok3⟩ := exceptBind_ok _ _ _ hok2
    have hreal : validateEntriesLoop ((qid, qe) :: rest) set areas =
        (insertOspfArea qe areas >>= fun areas' =>
         checkEntryInterfaces qe.nodes set >>= fun set' =>
         qe.validate >>= fun _ =>
         validateEntriesLoop rest set' areas') := rfl
    rw [hreal, ha]
    simp only [Bind.bind, Except.bind]
    cases hcei : checkEntryInterfaces qe.nodes set with
    | error err =>
      rw [checkEntryInterfaces_error qe.nodes set err hcei]
    | ok set' =>
      rw [hv]
      obtain ⟨hm1, hn1, hf1⟩ := checkEntryInterfaces_ok _ _ _ hcei
      refine ih set' areas' hok3 ?_
      rintro ⟨hn2, hf2⟩
      refine hdup ⟨?_, ?_⟩
      · show (entryPairs qe.nodes ++ configPairs rest).Nodup
        rw [List.nodup_append]
        refine ⟨hn1, hn2, ?_⟩
        intro p hp hcon
        exact hf2 p hcon ((hm1 p).mpr (Or.inr hp))
      · show ∀ p ∈ entryPairs qe.nodes ++ configPairs rest, p ∉ set
        intro p hp
        rcases List.mem_append.mp hp with hp | hp
        · exact hf1 p hp
        · intro hcon
          exact hf2 p hp ((hm1 p).mpr (Or.inl hcon))

/-- C6: whole-configuration validation succeeds only when every
(node id, interface name) pair occurs at most once across all fabrics;
and a configuration passing every non-interface check but containing a
repeated pair fails with DuplicateInterface. -/
theorem c6_duplicate_interface :
    (∀ cfg : FabricConfig, cfg.validate = .ok () → (interfacePairs cfg).Nodup) ∧
    (∀ cfg : FabricConfig, (cfg.stripInterfaces).validate = .ok () →
      ¬ (interfacePairs cfg).Nodup →
      cfg.validate = .error .duplicateInterface) := by
  constructor
  · intro cfg h
    unfold FabricConfig.validate at h
    obtain ⟨u, _, h2⟩ := exceptBind_ok _ _ _ h
    exact (validateEntriesLoop_ok _ _ _ h2).1
  · intro cfg hstrip hdup
    unfold FabricConfig.validate at hstrip ⊢
    have hfabrics : (cfg.stripInterfaces).fabrics =
        cfg.fabrics.map (fun p => (p.1, p.2.stripInterfaces)) := rfl
    rw [hfabrics] at hstrip
    have hmapeq : (cfg.fabrics.map (fun p => (p.1, p.2.stripInterfaces))).map
        (fun p => FabricEntry.fabric p.2) = cfg.fabrics.map (fun p => FabricEntry.fabric p.2) := by
      rw [List.map_map]
      refine List.map_congr_left ?_
      intro p _
      exact fabric_strip p.2
    rw [hmapeq] at hstrip
    obtain ⟨u, ho, h2⟩ := exceptBind_ok _ _ _ hstrip
    cases u
    rw [ho]
    simp only [Bind.bind, Except.bind]
    refine validateEntriesLoop_dup cfg.fabrics [] [] h2 ?_
    rintro ⟨hn, _⟩
    exact hdup hn

theorem c6_witness :
    (FabricConfig.mk [("f1", sampleEntry1)]).validate = .ok () ∧
    (interfacePairs ⟨[("f1", sampleEntry1)]⟩).Nodup :=
  ⟨by rfl, c6_duplicate_interface.1 ⟨[("f1", sampleEntry1)]⟩ (by rfl)⟩

/-- C9: a fabric entry without a node section for the current node
contributes nothing: the build step returns the state unchanged
(no records added, no sequence-counter advance), and when the node
participates in no fabric at all, build_fabric returns Ok with the
accumulator untouched. -/
theorem c9_skip_frame :
    (∀ (current_node fabric_id : String) (entry : FabricEntry) (st : BuildState),
      participates current_node entry = false →
      buildFabricEntry current_node fabric_id entry st = .ok st) ∧
    (∀ (current_node : String) (config : FabricConfig) (frr : FrrConfig),
      (∀ p ∈ config.fabrics, participates current_node p.2 = false) →
      build_fabric current_node config frr = .ok frr) := by
  have hstep : ∀ (cn fid : String) (entry : FabricEntry) (st : BuildState),
      participates cn entry = false → buildFabricEntry cn fid entry st = .ok st := by
    intro cn fid entry st h
    cases entry with
    | openfabric e =>
      simp only [participates] at h
      cases hl : mapLookup cn e.nodes with
      | none => simp only [buildFabricEntry, hl]
      | some node =>
        rw [hl] at h
        simp at h
    | ospf e =>
      simp only [participates] at h
      cases hl : mapLookup cn e.nodes with
      | none => simp only [buildFabricEntry, hl]
      | some node =>
        rw [hl] at h
        simp at h
  have hloop : ∀ (cn : String) (l : List (String × FabricEntry)) (st : BuildState),
      (∀ p ∈ l, participates cn p.2 = false) → buildFabricLoop cn l st = .ok st := by
    intro cn l
    induction l with
    | nil => intro st _; rfl
    | cons q rest ih =>
      obtain ⟨fid, entry⟩ := q
      intro st h
      show (buildFabricEntry cn fid entry st >>= fun st' =>
        buildFabricLoop cn rest st') = .ok st
      rw [hstep cn fid entry st (h _ (List.mem_cons_self _ _))]
      simp only [Bind.bind, Except.bind]
      exact ih st (fun p hp => h p (List.mem_cons_of_mem _ hp))
  refine ⟨hstep, ?_⟩
  intro cn config frr h
  unfold build_fabric
  rw [hloop cn config.fabrics _ h]
  rfl

theorem c9_witness :
    (∀ p ∈ sampleCfgC4.fabrics, participates "other" p.2 = false) ∧
    build_fabric "other" sampleCfgC4 FrrConfig.new = .ok FrrConfig.new :=
  ⟨by decide, c9_skip_frame.2 "other" sampleCfgC4 FrrConfig.new (by decide)⟩

theorem exceptMap_ok {ε α β : Type} (x : Except ε α) (f : α → β) (b : β)
    (h : x.map f = .ok b) : ∃ a, x = .ok a ∧ f a = b := by
  cases x with
  | ok a => exact ⟨a, rfl, by simpa [Except.map] using h⟩
  | error e => simp [Except.map] at h

theorem frrWord_ok (s w : String) (h : FrrWord.new s = .ok w) : w = s := by
  unfold FrrWord.new at h
  split at h
  · cases h
  · split at h
    · cases h
    · exact (Except.ok.inj h).symm

theorem commonName_ok (s n : String) (h : CommonInterfaceName.new s = .ok n) : n = s := by
  unfold CommonInterfaceName.new at h
  split at h
  · exact (Except.ok.inj h).symm
  · cases h

theorem amLookup_amInsert_self {K V : Type} [DecidableEq K] (k : K) (v : V)
    (m : List (K × V)) : amLookup k (amInsert k v m) = some v := by
  induction m with
  | nil => simp [amInsert, amLookup]
  | cons p rest ih =>
    obtain ⟨k0, v0⟩ := p
    by_cases hk : k = k0
    · subst hk
      simp [amInsert, amLookup]
    · have hk' : ¬ k0 = k := fun he => hk he.symm
      simp [amInsert, amLookup, hk, hk', ih]

theorem amLookup_amInsert_ne {K V : Type} [DecidableEq K] (k k' : K) (v : V)
    (m : List (K × V)) (h : k ≠ k') :
    amLookup k' (amInsert k v m) = amLookup k' m := by
  induction m with
  | nil => simp [amInsert, amLookup, h]
  | cons p rest ih =>
    obtain ⟨k0, v0⟩ := p
    by_cases hk : k = k0
    · subst hk
      simp [amInsert, amLookup, h]
    · simp [amInsert, amLookup, hk, ih]

theorem amLookup_isSome_amInsert {K V : Type} [DecidableEq K] (k k' : K) (v : V)
    (m : List (K × V)) (h : (amLookup k' m).isSome = true) :
    (amLookup k' (amInsert k v m)).isSome = true := by
  by_cases hk : k = k'
  · subst hk
    rw [amLookup_amInsert_self]
    rfl
  · rw [amLookup_amInsert_ne _ _ _ _ hk]
    exact h

theorem mem_keys_amInsert {K V : Type} [DecidableEq K] (k x : K) (v : V)
    (m : List (K × V)) (h : x ∈ (amInsert k v m).map Prod.fst) :
    x = k ∨ x ∈ m.map Prod.fst := by
  induction m with
  | nil =>
    simp [amInsert] at h
    exact Or.inl h
  | cons p rest ih =>
    obtain ⟨k0, v0⟩ := p
    by_cases hk : k = k0
    · subst hk
      simp only [amInsert] at h
      rw [if_pos trivial, List.map_cons, List.mem_cons] at h
      rcases h with h1 | h1
      · exact Or.inl h1
      · exact Or.inr (List.mem_cons_of_mem _ h1)
    · simp only [amInsert] at h
      rw [if_neg hk, List.map_cons, List.mem_cons] at h
      rcases h with h1 | h1
      · exact Or.inr (h1 ▸ List.mem_cons_self _ _)
      · rcases ih h1 with h2 | h2
        · exact Or.inl h2
        · exact Or.inr (List.mem_cons_of_mem _ h2)

theorem amInsert_keys_nodup {K V : Type} [DecidableEq K] (k : K) (v : V)
    (m : List (K × V)) (h : (m.map Prod.fst).Nodup) :
    ((amInsert k v m).map Prod.fst).Nodup := by
  induction m with
  | nil => simp [amInsert]
  | cons p rest ih =>
    obtain ⟨k0, v0⟩ := p
    simp only [List.map_cons, List.nodup_cons] at h
    by_cases hk : k = k0
    · subst hk
      simpa [amInsert] using h
    · simp only [amInsert, if_neg hk, List.map_cons, List.nodup_cons]
      refine ⟨?_, ih h.2⟩
      intro hmem
      rcases mem_keys_amInsert _ _ _ _ hmem with h' | h'
      · exact hk h'.symm
      · exact h.1 h'

theorem filter_keys_nil {K V : Type} [DecidableEq K] (k : K) (m : List (K × V))
    (h : k ∉ m.map Prod.fst) :
    m.filter (fun p => decide (p.1 = k)) = [] := by
  induction m with
  | nil => rfl
  | cons p rest ih =>
    obtain ⟨k0, v0⟩ := p
    have h1 : ¬ (k0 = k) := fun he => h (by simp [he])
    have h2 : k ∉ rest.map Prod.fst := fun hm => h (by simp [hm])
    rw [List.filter_cons]
    simp only [decide_eq_true_eq]
    rw [if_neg h1]
    exact ih h2

theorem filter_eq_single {K V : Type} [DecidableEq K] (k : K) (v : V)
    (m : List (K × V)) (hn : (m.map Prod.fst).Nodup) (h : amLookup k m = some v) :
    m.filter (fun p => decide (p.1 = k)) = [(k, v)] := by
  induction m with
  | nil => simp [amLookup] at h
  | cons p rest ih =>
    obtain ⟨k0, v0⟩ := p
    simp only [List.map_cons, List.nodup_cons] at hn
    by_cases hk : k0 = k
    · subst hk
      have h' : v0 = v := by simpa [amLookup] using h
      rw [List.filter_cons]
      split
      · rw [filter_keys_nil _ _ hn.1, h']
      · next hcond => exact absurd (by simp) hcond
    · rw [List.filter_cons]
      split
      · next hcond => exact absurd (by simpa using hcond) hk
      · refine ih hn.2 ?_
        simpa [amLookup, hk] using h

theorem psInsert_mem (p q : ProtocolRouteMap) (s : List ProtocolRouteMap)
    (h : q ∈ s) : q ∈ psInsert p s := by
  unfold psInsert
  split
  · exact h
  · exact List.mem_append_left _ h

theorem buildOspfInterfaces_frame (a : String) :
    ∀ (l : List OspfInterfaceProperties) (frr frr2 : FrrConfig),
      buildOspfInterfaces a l frr = .ok frr2 →
      frr2.router = frr.router ∧ frr2.access_lists = frr.access_lists ∧
      frr2.routemaps = frr.routemaps ∧
      frr2.protocol_routemaps = frr.protocol_routemaps ∧
      (∀ k, (amLookup k frr.interfaces).isSome = true →
        (amLookup k frr2.interfaces).isSome = true) := by
  intro l
  induction l with
  | nil =>
    intro frr frr2 h
    have he : frr = frr2 := Except.ok.inj h
    subst he
    exact ⟨rfl, rfl, rfl, rfl, fun k hk => hk⟩
  | cons i rest ih =>
    intro frr frr2 h
    obtain ⟨r, hr, h⟩ := exceptBind_ok _ _ _ h
    obtain ⟨hR, hA, hM, hP, hI⟩ := ih _ _ h
    exact ⟨hR, hA, hM, hP,
      fun k hk => hI k (amLookup_isSome_amInsert _ _ _ _ hk)⟩

theorem buildOFInterfaces_frame (fid : String) (fc : OpenfabricProperties)
    (i4 i6 : Bool) :
    ∀ (l : List OpenfabricInterfaceProperties) (frr frr2 : FrrConfig),
      buildOFInterfaces fid fc i4 i6 l frr = .ok frr2 →
      frr2.router = frr.router ∧ frr2.access_lists = frr.access_lists ∧
      frr2.routemaps = frr.routemaps ∧
      frr2.protocol_routemaps = frr.protocol_routemaps ∧
      (∀ k, (amLookup k frr.interfaces).isSome = true →
        (amLookup k frr2.interfaces).isSome = true) := by
  intro l
  induction l with
  | nil =>
    intro frr frr2 h
    have he : frr = frr2 := Except.ok.inj h
    subst he
    exact ⟨rfl, rfl, rfl, rfl, fun k hk => hk⟩
  | cons i rest ih =>
    intro frr frr2 h
    obtain ⟨r, hr, h⟩ := exceptBind_ok _ _ _ h
    obtain ⟨hR, hA, hM, hP, hI⟩ := ih _ _ h
    exact ⟨hR, hA, hM, hP,
      fun k hk => hI k (amLookup_isSome_amInsert _ _ _ _ hk)⟩

theorem buildFabricEntry_skip (cn fid : String) (entry : FabricEntry)
    (st : BuildState) (h : participates cn entry = false) :
    buildFabricEntry cn fid entry st = .ok st := by
  cases entry with
  | openfabric e =>
    simp only [participates] at h
    cases hl : mapLookup cn e.nodes with
    | none => simp only [buildFabricEntry, hl]
    | some node =>
      rw [hl] at h
      simp at h
  | ospf e =>
    simp only [participates] at h
    cases hl : mapLookup cn e.nodes with
    | none => simp only [buildFabricEntry, hl]
    | some node =>
      rw [hl] at h
      simp at h

theorem buildFabricLoop_skip (cn : String) :
    ∀ (l : List (String × FabricEntry)) (st : BuildState),
      (∀ p ∈ l, participates cn p.2 = false) →
      buildFabricLoop cn l st = .ok st := by
  intro l
  induction l with
  | nil => intro st _; rfl
  | cons q rest ih =>
    obtain ⟨fid, entry⟩ := q
    intro st h
    show (buildFabricEntry cn fid entry st >>= fun st2 =>
      buildFabricLoop cn rest st2) = .ok st
    rw [buildFabricEntry_skip cn fid entry st (h _ (List.mem_cons_self _ _))]
    simp only [Bind.bind, Except.bind]
    exact ih st (fun p hp => h p (List.mem_cons_of_mem _ hp))

theorem ospf_step_chr (cn fid : String)
    (e : Entry OspfProperties OspfNodeProperties) (st st2 : BuildState)
    (node : NodeSection OspfNodeProperties)
    (hl : mapLookup cn e.nodes = some node)
    (h : buildFabricEntry cn fid (.ospf e) st = .ok st2) :
    ∃ router_id node_ip,
      deriveRid st.current_router_id node = some router_id ∧
      node.ip = some node_ip ∧
      st2.current_router_id = some router_id ∧
      st2.current_net = st.current_net ∧
      amLookup SerRouterName.ospf st2.frr.router =
        some (SerRouter.ospf ⟨router_id⟩) ∧
      (∀ k, k ≠ SerRouterName.ospf →
        amLookup k st2.frr.router = amLookup k st.frr.router) ∧
      ((st.frr.router.map Prod.fst).Nodup → (st2.frr.router.map Prod.fst).Nodup) ∧
      (∃ al ∈ st2.frr.access_lists, al.name = "pve_ospf_" ++ fid ++ "_ips") ∧
      (∀ al ∈ st.frr.access_lists, al ∈ st2.frr.access_lists) ∧
      (∃ rm ∈ st2.frr.routemaps, rm.name = "pve_ospf" ∧
        rm.matchers = [RouteMapMatch.v4ip ("pve_ospf_" ++ fid ++ "_ips")]) ∧
      (∀ rm ∈ st.frr.routemaps, rm ∈ st2.frr.routemaps) ∧
      (amLookup (SerInterfaceName.openfabric ("dummy_" ++ fid))
        st2.frr.interfaces).isSome = true ∧
      (∀ k, (amLookup k st.frr.interfaces).isSome = true →
        (amLookup k st2.frr.interfaces).isSome = true) := by
  simp only [buildFabricEntry, hl] at h
  obtain ⟨router_id, hrid, h⟩ := exceptBind_ok _ _ _ h
  obtain ⟨fwa, hfwa, h⟩ := exceptBind_ok _ _ _ h
  obtain ⟨fa, hfa, h⟩ := exceptBind_ok _ _ _ h
  obtain ⟨router, hrouter, h⟩ := exceptBind_ok _ _ _ h
  obtain ⟨dummy, hdummy, h⟩ := exceptBind_ok _ _ _ h
  obtain ⟨frr3, hfrr3, h⟩ := exceptBind_ok _ _ _ h
  obtain ⟨pfx, hpfx, h⟩ := exceptBind_ok _ _ _ h
  obtain ⟨node_ip, hnip, h⟩ := exceptBind_ok _ _ _ h
  obtain ⟨rm, hrm, h⟩ := exceptBind_ok _ _ _ h
  have hrouter2 : router = (SerRouterName.ospf, SerRouter.ospf ⟨router_id⟩) :=
    (Except.ok.inj hrouter).symm
  subst hrouter2
  obtain ⟨nm, hnm, hdummy2⟩ := exceptBind_ok _ _ _ hdummy
  have hnm2 : nm = "dummy_" ++ fid := commonName_ok _ _ hnm
  subst hnm2
  have hdummy3 : dummy = (SerInterface.ospf ⟨fa, some true, none⟩,
      SerInterfaceName.openfabric ("dummy_" ++ fid)) := (Except.ok.inj hdummy2).symm
  subst hdummy3
  have hrm2 : rm = ⟨"pve_ospf", st.routemap_seq, .permit,
      [.v4ip ("pve_ospf_" ++ fid ++ "_ips")], [.ipSrc (.v4 node_ip)]⟩ :=
    (Except.ok.inj hrm).symm
  subst hrm2
  have hst2 := Except.ok.inj h
  subst hst2
  have hframe := buildOspfInterfaces_frame fa node.properties.interfaces _ _ hfrr3
  have hnip2 : node.ip = some node_ip := by
    cases hip : node.ip with
    | some ip =>
      rw [hip] at hnip
      exact congrArg some (Except.ok.inj hnip)
    | none =>
      rw [hip] at hnip
      cases hnip
  have hdrid : deriveRid st.current_router_id node = some router_id := by
    cases hcr : st.current_router_id with
    | some r =>
      rw [hcr] at hrid
      simp only [deriveRid]
      exact congrArg some (Except.ok.inj hrid)
    | none =>
      rw [hcr] at hrid
      simp only [deriveRid]
      cases hip : node.ip with
      | some ip =>
        rw [hip] at hrid
        exact congrArg some (Except.ok.inj hrid)
      | none =>
        rw [hip] at hrid
        cases hrid
  refine ⟨router_id, node_ip, hdrid, hnip2, rfl, rfl, ?_, ?_, ?_, ?_, ?_, ?_, ?_, ?_, ?_⟩
  · show amLookup SerRouterName.ospf frr3.router = _
    rw [hframe.1]
    exact amLookup_amInsert_self _ _ _
  · intro k hk
    show amLookup k frr3.router = amLookup k st.frr.router
    rw [hframe.1]
    exact amLookup_amInsert_ne _ _ _ _ (Ne.symm hk)
  · intro hn
    show ((frr3.router).map Prod.fst).Nodup
    rw [hframe.1]
    exact amInsert_keys_nodup _ _ _ hn
  · exact ⟨⟨"pve_ospf_" ++ fid ++ "_ips", [⟨.permit, .v4 pfx, none⟩]⟩,
      List.mem_append_right _ (List.mem_singleton.mpr rfl), rfl⟩
  · intro al hal
    refine List.mem_append_left _ ?_
    show al ∈ frr3.access_lists
    rw [hframe.2.1]
    exact hal
  · exact ⟨⟨"pve_ospf", st.routemap_seq, .permit,
      [.v4ip ("pve_ospf_" ++ fid ++ "_ips")], [.ipSrc (.v4 node_ip)]⟩,
      List.mem_append_right _ (List.mem_singleton.mpr rfl), rfl, rfl⟩
  · intro q hq
    refine List.mem_append_left _ ?_
    show q ∈ frr3.routemaps
    rw [hframe.2.2.1]
    exact hq
  · have h1 := amLookup_amInsert_self
      (SerInterfaceName.openfabric ("dummy_" ++ fid))
      (SerInterface.ospf ⟨fa, some true, none⟩) st.frr.interfaces
    have h2 : (amLookup (SerInterfaceName.openfabric ("dummy_" ++ fid))
        (amInsert (SerInterfaceName.openfabric ("dummy_" ++ fid))
          (SerInterface.ospf ⟨fa, some true, none⟩) st.frr.interfaces)).isSome
        = true := by
      rw [h1]
      rfl
    exact hframe.2.2.2.2 _ h2
  · intro k hk
    exact hframe.2.2.2.2 k (amLookup_isSome_amInsert _ _ _ _ hk)

theorem of_step_chr (cn fid : String)
    (e : Entry OpenfabricProperties OpenfabricNodeProperties) (st st2 : BuildState)
    (node : NodeSection OpenfabricNodeProperties)
    (hl : mapLookup cn e.nodes = some node)
    (h : buildFabricEntry cn fid (.openfabric e) st = .ok st2) :
    ∃ net,
      deriveNet st.current_net node = some net ∧
      st2.current_router_id = st.current_router_id ∧
      st2.current_net = some net ∧
      amLookup (SerRouterName.openfabric fid) st2.frr.router =
        some (SerRouter.openfabric ⟨net⟩) ∧
      (∀ k, k ≠ SerRouterName.openfabric fid →
        amLookup k st2.frr.router = amLookup k st.frr.router) ∧
      ((st.frr.router.map Prod.fst).Nodup → (st2.frr.router.map Prod.fst).Nodup) ∧
      (∀ al ∈ st.frr.access_lists, al ∈ st2.frr.access_lists) ∧
      (∀ q ∈ st.frr.routemaps, q ∈ st2.frr.routemaps) ∧
      (∀ k, (amLookup k st.frr.interfaces).isSome = true →
        (amLookup k st2.frr.interfaces).isSome = true) := by
  simp only [buildFabricEntry, hl] at h
  cases hcn : st.current_net with
  | some n0 =>
    rw [hcn] at h
    obtain ⟨router, hrouter, hA⟩ := exceptBind_ok _ _ _ h
    clear h
    obtain ⟨dummy, hdummy, hB⟩ := exceptBind_ok _ _ _ hA
    clear hA
    obtain ⟨frr3, hfrr3, hC⟩ := exceptBind_ok _ _ _ hB
    clear hB
    obtain ⟨w, hw, hrouter2⟩ := exceptBind_ok _ _ _ hrouter
    have hw2 : w = fid := frrWord_ok _ _ hw
    have hrouter3 : router = (SerRouterName.openfabric fid,
        SerRouter.openfabric ⟨n0⟩) := by
      rw [← hw2]
      exact (Except.ok.inj hrouter2).symm
    subst hrouter3
    have hst2 := Except.ok.inj hC
    subst hst2
    have hframe := buildOFInterfaces_frame _ _ _ _ _ _ _ hfrr3
    refine ⟨n0, rfl, rfl, rfl, ?_, ?_, ?_, ?_, ?_, ?_⟩
    · cases node.ip <;> cases node.ip6 <;> cases e.fabric.prefix4 <;>
        cases e.fabric.prefix6 <;>
        (show amLookup (SerRouterName.openfabric fid) frr3.router = _
         rw [hframe.1]
         exact amLookup_amInsert_self _ _ _)
    · intro k hk
      cases node.ip <;> cases node.ip6 <;> cases e.fabric.prefix4 <;>
        cases e.fabric.prefix6 <;>
        (show amLookup k frr3.router = amLookup k st.frr.router
         rw [hframe.1]
         exact amLookup_amInsert_ne _ _ _ _ (Ne.symm hk))
    · intro hn
      cases node.ip <;> cases node.ip6 <;> cases e.fabric.prefix4 <;>
        cases e.fabric.prefix6 <;>
        (show ((frr3.router).map Prod.fst).Nodup
         rw [hframe.1]
         exact amInsert_keys_nodup _ _ _ hn)
    · intro al hal
      have hal3 : al ∈ frr3.access_lists := by
        rw [hframe.2.1]
        exact hal
      cases node.ip <;> cases node.ip6 <;> cases e.fabric.prefix4 <;>
        cases e.fabric.prefix6 <;>
        (first
          | exact hal3
          | exact List.mem_append_left _ hal3
          | exact List.mem_append_left _ (List.mem_append_left _ hal3))
    · intro q hq
      have hq3 : q ∈ frr3.routemaps := by
        rw [hframe.2.2.1]
        exact hq
      cases node.ip <;> cases node.ip6 <;> cases e.fabric.prefix4 <;>
        cases e.fabric.prefix6 <;>
        (first
          | exact hq3
          | exact List.mem_append_left _ hq3
          | exact List.mem_append_left _ (List.mem_append_left _ hq3))
    · intro k hk
      cases node.ip <;> cases node.ip6 <;> cases e.fabric.prefix4 <;>
        cases e.fabric.prefix6 <;>
        (show (amLookup k frr3.interfaces).isSome = true
         exact hframe.2.2.2.2 k (amLookup_isSome_amInsert _ _ _ _ hk))
  | none =>
    rw [hcn] at h
    cases hip : node.ip with
    | some ip =>
      rw [hip] at h
      cases hip6 : node.ip6 with
      | some ip6 =>
        rw [hip6] at h
        obtain ⟨router, hrouter, hA⟩ := exceptBind_ok _ _ _ h
        clear h
        obtain ⟨dummy, hdummy, hB⟩ := exceptBind_ok _ _ _ hA
        clear hA
        obtain ⟨frr3, hfrr3, hC⟩ := exceptBind_ok _ _ _ hB
        clear hB
        obtain ⟨w, hw, hrouter2⟩ := exceptBind_ok _ _ _ hrouter
        have hw2 : w = fid := frrWord_ok _ _ hw
        have hrouter3 : router = (SerRouterName.openfabric fid,
            SerRouter.openfabric ⟨Net.fromIpv4 ip⟩) := by
          rw [← hw2]
          exact (Except.ok.inj hrouter2).symm
        subst hrouter3
        have hst2 := Except.ok.inj hC
        subst hst2
        have hframe := buildOFInterfaces_frame _ _ _ _ _ _ _ hfrr3
        refine ⟨Net.fromIpv4 ip, (by simp [deriveNet, hip, hip6]), rfl, rfl, ?_, ?_, ?_, ?_, ?_, ?_⟩
        · cases node.ip <;> cases node.ip6 <;> cases e.fabric.prefix4 <;>
            cases e.fabric.prefix6 <;>
            (show amLookup (SerRouterName.openfabric fid) frr3.router = _
             rw [hframe.1]
             exact amLookup_amInsert_self _ _ _)
        · intro k hk
          cases node.ip <;> cases node.ip6 <;> cases e.fabric.prefix4 <;>
            cases e.fabric.prefix6 <;>
            (show amLookup k frr3.router = amLookup k st.frr.router
             rw [hframe.1]
             exact amLookup_amInsert_ne _ _ _ _ (Ne.symm hk))
        · intro hn
          cases node.ip <;> cases node.ip6 <;> cases e.fabric.prefix4 <;>
            cases e.fabric.prefix6 <;>
            (show ((frr3.router).map Prod.fst).Nodup
             rw [hframe.1]
             exact amInsert_keys_nodup _ _ _ hn)
        · intro al hal
          have hal3 : al ∈ frr3.access_lists := by
            rw [hframe.2.1]
            exact hal
          cases node.ip <;> cases node.ip6 <;> cases e.fabric.prefix4 <;>
            cases e.fabric.prefix6 <;>
            (first
              | exact hal3
              | exact List.mem_append_left _ hal3
              | exact List.mem_append_left _ (List.mem_append_left _ hal3))
        · intro q hq
          have hq3 : q ∈ frr3.routemaps := by
            rw [hframe.2.2.1]
            exact hq
          cases node.ip <;> cases node.ip6 <;> cases e.fabric.prefix4 <;>
            cases e.fabric.prefix6 <;>
            (first
              | exact hq3
              | exact List.mem_append_left _ hq3
              | exact List.mem_append_left _ (List.mem_append_left _ hq3))
        · intro k hk
          cases node.ip <;> cases node.ip6 <;> cases e.fabric.prefix4 <;>
            cases e.fabric.prefix6 <;>
            (show (amLookup k frr3.interfaces).isSome = true
             exact hframe.2.2.2.2 k (amLookup_isSome_amInsert _ _ _ _ hk))
      | none =>
        rw [hip6] at h
        obtain ⟨router, hrouter, hA⟩ := exceptBind_ok _ _ _ h
        clear h
        obtain ⟨dummy, hdummy, hB⟩ := exceptBind_ok _ _ _ hA
        clear hA
        obtain ⟨frr3, hfrr3, hC⟩ := exceptBind_ok _ _ _ hB
        clear hB
        obtain ⟨w, hw, hrouter2⟩ := exceptBind_ok _ _ _ hrouter
        have hw2 : w = fid := frrWord_ok _ _ hw
        have hrouter3 : router = (SerRouterName.openfabric fid,
            SerRouter.openfabric ⟨Net.fromIpv4 ip⟩) := by
          rw [← hw2]
          exact (Except.ok.inj hrouter2).symm
        subst hrouter3
        have hst2 := Except.ok.inj hC
        subst hst2
        have hframe := buildOFInterfaces_frame _ _ _ _ _ _ _ hfrr3
        refine ⟨Net.fromIpv4 ip, (by simp [deriveNet, hip, hip6]), rfl, rfl, ?_, ?_, ?_, ?_, ?_, ?_⟩
        · cases node.ip <;> cases node.ip6 <;> cases e.fabric.prefix4 <;>
            cases e.fabric.prefix6 <;>
            (show amLookup (SerRouterName.openfabric fid) frr3.router = _
             rw [hframe.1]
             exact amLookup_amInsert_self _ _ _)
        · intro k hk
          cases node.ip <;> cases node.ip6 <;> cases e.fabric.prefix4 <;>
            cases e.fabric.prefix6 <;>
            (show amLookup k frr3.router = amLookup k st.frr.router
             rw [hframe.1]
             exact amLookup_amInsert_ne _ _ _ _ (Ne.symm hk))
        · intro hn
          cases node.ip <;> cases node.ip6 <;> cases e.fabric.prefix4 <;>
            cases e.fabric.prefix6 <;>
            (show ((frr3.router).map Prod.fst).Nodup
             rw [hframe.1]
             exact amInsert_keys_nodup _ _ _ hn)
        · intro al hal
          have hal3 : al ∈ frr3.access_lists := by
            rw [hframe.2.1]
            exact hal
          cases node.ip <;> cases node.ip6 <;> cases e.fabric.prefix4 <;>
            cases e.fabric.prefix6 <;>
            (first
              | exact hal3
              | exact List.mem_append_left _ hal3
              | exact List.mem_append_left _ (List.mem_append_left _ hal3))
        · intro q hq
          have hq3 : q ∈ frr3.routemaps := by
            rw [hframe.2.2.1]
            exact hq
          cases node.ip <;> cases node.ip6 <;> cases e.fabric.prefix4 <;>
            cases e.fabric.prefix6 <;>
            (first
              | exact hq3
              | exact List.mem_append_left _ hq3
              | exact List.mem_append_left _ (List.mem_append_left _ hq3))
        · intro k hk
          cases node.ip <;> cases node.ip6 <;> cases e.fabric.prefix4 <;>
            cases e.fabric.prefix6 <;>
            (show (amLookup k frr3.interfaces).isSome = true
             exact hframe.2.2.2.2 k (amLookup_isSome_amInsert _ _ _ _ hk))
    | none =>
      rw [hip] at h
      cases hip6 : node.ip6 with
      | some ip6 =>
        rw [hip6] at h
        obtain ⟨router, hrouter, hA⟩ := exceptBind_ok _ _ _ h
        clear h
        obtain ⟨dummy, hdummy, hB⟩ := exceptBind_ok _ _ _ hA
        clear hA
        obtain ⟨frr3, hfrr3, hC⟩ := exceptBind_ok _ _ _ hB
        clear hB
        obtain ⟨w, hw, hrouter2⟩ := exceptBind_ok _ _ _ hrouter
        have hw2 : w = fid := frrWord_ok _ _ hw
        have hrouter3 : router = (SerRouterName.openfabric fid,
            SerRouter.openfabric ⟨Net.fromIpv6 ip6⟩) := by
          rw [← hw2]
          exact (Except.ok.inj hrouter2).symm
        subst hrouter3
        have hst2 := Except.ok.inj hC
        subst hst2
        have hframe := buildOFInterfaces_frame _ _ _ _ _ _ _ hfrr3
        refine ⟨Net.fromIpv6 ip6, (by simp [deriveNet, hip, hip6]), rfl, rfl, ?_, ?_, ?_, ?_, ?_, ?_⟩
        · cases node.ip <;> cases node.ip6 <;> cases e.fabric.prefix4 <;>
            cases e.fabric.prefix6 <;>
            (show amLookup (SerRouterName.openfabric fid) frr3.router = _
             rw [hframe.1]
             exact amLookup_amInsert_self _ _ _)
        · intro k hk
          cases node.ip <;> cases node.ip6 <;> cases e.fabric.prefix4 <;>
            cases e.fabric.prefix6 <;>
            (show amLookup k frr3.router = amLookup k st.frr.router
             rw [hframe.1]
             exact amLookup_amInsert_ne _ _ _ _ (Ne.symm hk))
        · intro hn
          cases node.ip <;> cases node.ip6 <;> cases e.fabric.prefix4 <;>
            cases e.fabric.prefix6 <;>
            (show ((frr3.router).map Prod.fst).Nodup
             rw [hframe.1]
             exact amInsert_keys_nodup _ _ _ hn)
        · intro al hal
          have hal3 : al ∈ frr3.access_lists := by
            rw [hframe.2.1]
            exact hal
          cases node.ip <;> cases node.ip6 <;> cases e.fabric.prefix4 <;>
            cases e.fabric.prefix6 <;>
            (first
              | exact hal3
              | exact List.mem_append_left _ hal3
              | exact List.mem_append_left _ (List.mem_append_left _ hal3))
        · intro q hq
          have hq3 : q ∈ frr3.routemaps := by
            rw [hframe.2.2.1]
            exact hq
          cases node.ip <;> cases node.ip6 <;> cases e.fabric.prefix4 <;>
            cases e.fabric.prefix6 <;>
            (first
              | exact hq3
              | exact List.mem_append_left _ hq3
              | exact List.mem_append_left _ (List.mem_append_left _ hq3))
        · intro k hk
          cases node.ip <;> cases node.ip6 <;> cases e.fabric.prefix4 <;>
            cases e.fabric.prefix6 <;>
            (show (amLookup k frr3.interfaces).isSome = true
             exact hframe.2.2.2.2 k (amLookup_isSome_amInsert _ _ _ _ hk))
      | none =>
        rw [hip6] at h
        exact Except.noConfusion h

theorem firstOpenfabricNet_head (cn fid : String)
    (e : Entry OpenfabricProperties OpenfabricNodeProperties)
    (node : NodeSection OpenfabricNodeProperties)
    (hl : mapLookup cn e.nodes = some node)
    (rest : List (String × FabricEntry)) :
    firstOpenfabricNet cn ((fid, FabricEntry.openfabric e) :: rest) =
      deriveNet none node := by
  simp only [firstOpenfabricNet, hl, deriveNet]

theorem loop_ospf_inv (cn : String) :
    ∀ (l : List (String × FabricEntry)) (st s : BuildState),
      buildFabricLoop cn l st = .ok s →
      (st.frr.router.map Prod.fst).Nodup →
      ospfTie st →
      (s.frr.router.map Prod.fst).Nodup ∧ ospfTie s ∧
      s.current_router_id = (match st.current_router_id with
        | some r => some r
        | none => firstOspfIp cn l) := by
  intro l
  induction l with
  | nil =>
    intro st s h hn ht
    have he : st = s := Except.ok.inj h
    subst he
    refine ⟨hn, ht, ?_⟩
    cases st.current_router_id <;> rfl
  | cons q rest ih =>
    obtain ⟨fid, entry⟩ := q
    intro st s h hn ht
    obtain ⟨st1, hstep, hrest⟩ := exceptBind_ok _ _ _ h
    cases entry with
    | openfabric e =>
      cases hl : mapLookup cn e.nodes with
      | none =>
        rw [buildFabricEntry_skip cn fid _ st (by simp [participates, hl])] at hstep
        have he : st = st1 := Except.ok.inj hstep
        subst he
        obtain ⟨hn2, ht2, hr2⟩ := ih st s hrest hn ht
        refine ⟨hn2, ht2, ?_⟩
        rw [hr2]
        cases st.current_router_id <;> rfl
      | some node =>
        obtain ⟨net, hdn, hcrid, hcnet, hlk, hpres, hnodup, _, _, _⟩ :=
          of_step_chr cn fid e st st1 node hl hstep
        have hlk2 := hpres SerRouterName.ospf (by simp)
        have ht1 : ospfTie st1 := by
          unfold ospfTie
          rw [hcrid, hlk2]
          exact ht
        obtain ⟨hn2, ht2, hr2⟩ := ih st1 s hrest (hnodup hn) ht1
        refine ⟨hn2, ht2, ?_⟩
        rw [hr2, hcrid]
        cases st.current_router_id <;> rfl
    | ospf e =>
      cases hl : mapLookup cn e.nodes with
      | none =>
        rw [buildFabricEntry_skip cn fid _ st (by simp [participates, hl])] at hstep
        have he : st = st1 := Except.ok.inj hstep
        subst he
        obtain ⟨hn2, ht2, hr2⟩ := ih st s hrest hn ht
        refine ⟨hn2, ht2, ?_⟩
        rw [hr2]
        cases hcr : st.current_router_id with
        | some r => rfl
        | none =>
          simp only [firstOspfIp, hl]
      | some node =>
        obtain ⟨rid, nip, hdr, hnip, hcrid, hcnet, hlk, hpres, hnodup,
          _, _, _, _, _, _⟩ := ospf_step_chr cn fid e st st1 node hl hstep
        have ht1 : ospfTie st1 := by
          unfold ospfTie
          rw [hcrid]
          exact hlk
        obtain ⟨hn2, ht2, hr2⟩ := ih st1 s hrest (hnodup hn) ht1
        refine ⟨hn2, ht2, ?_⟩
        rw [hr2, hcrid]
        cases hcr : st.current_router_id with
        | some r =>
          rw [hcr] at hdr
          simp only [deriveRid] at hdr
          exact hdr.symm
        | none =>
          rw [hcr] at hdr
          simp only [deriveRid] at hdr
          simp only [firstOspfIp, hl]
          exact hdr.symm

theorem loop_mono (cn : String) :
    ∀ (l : List (String × FabricEntry)) (st s : BuildState),
      buildFabricLoop cn l st = .ok s →
      (∀ al ∈ st.frr.access_lists, al ∈ s.frr.access_lists) ∧
      (∀ q ∈ st.frr.routemaps, q ∈ s.frr.routemaps) ∧
      (∀ k, (amLookup k st.frr.interfaces).isSome = true →
        (amLookup k s.frr.interfaces).isSome = true) := by
  intro l
  induction l with
  | nil =>
    intro st s h
    have he : st = s := Except.ok.inj h
    subst he
    exact ⟨fun _ h2 => h2, fun _ h2 => h2, fun _ h2 => h2⟩
  | cons q rest ih =>
    obtain ⟨fid, entry⟩ := q
    intro st s h
    obtain ⟨st1, hstep, hrest⟩ := exceptBind_ok _ _ _ h
    obtain ⟨ha2, hr2, hi2⟩ := ih st1 s hrest
    cases entry with
    | openfabric e =>
      cases hl : mapLookup cn e.nodes with
      | none =>
        rw [buildFabricEntry_skip cn fid _ st (by simp [participates, hl])] at hstep
        have he : st = st1 := Except.ok.inj hstep
        subst he
        exact ⟨ha2, hr2, hi2⟩
      | some node =>
        obtain ⟨net, _, _, _, _, _, _, hamono, hrmono, himono⟩ :=
          of_step_chr cn fid e st st1 node hl hstep
        exact ⟨fun al hal => ha2 al (hamono al hal),
          fun q hq => hr2 q (hrmono q hq),
          fun k hk => hi2 k (himono k hk)⟩
    | ospf e =>
      cases hl : mapLookup cn e.nodes with
      | none =>
        rw [buildFabricEntry_skip cn fid _ st (by simp [participates, hl])] at hstep
        have he : st = st1 := Except.ok.inj hstep
        subst he
        exact ⟨ha2, hr2, hi2⟩
      | some node =>
        obtain ⟨rid, nip, _, _, _, _, _, _, _, _, hamono, _, hrmono, _, himono⟩ :=
          ospf_step_chr cn fid e st st1 node hl hstep
        exact ⟨fun al hal => ha2 al (hamono al hal),
          fun q hq => hr2 q (hrmono q hq),
          fun k hk => hi2 k (himono k hk)⟩

theorem loop_ospf_emits (cn : String) :
    ∀ (l : List (String × FabricEntry)) (st s : BuildState),
      buildFabricLoop cn l st = .ok s →
      ∀ p ∈ l, participatesOspf cn p.2 = true →
        (∃ al ∈ s.frr.access_lists, al.name = "pve_ospf_" ++ p.1 ++ "_ips") ∧
        (∃ rm ∈ s.frr.routemaps, rm.name = "pve_ospf" ∧
          rm.matchers = [RouteMapMatch.v4ip ("pve_ospf_" ++ p.1 ++ "_ips")]) ∧
        (amLookup (SerInterfaceName.openfabric ("dummy_" ++ p.1))
          s.frr.interfaces).isSome = true := by
  intro l
  induction l with
  | nil =>
    intro st s h p hp hpart
    simp at hp
  | cons q rest ih =>
    obtain ⟨fid, entry⟩ := q
    intro st s h p hp hpart
    obtain ⟨st1, hstep, hrest⟩ := exceptBind_ok _ _ _ h
    rcases List.mem_cons.mp hp with hp1 | hp1
    · subst hp1
      cases entry with
      | openfabric e => simp [participatesOspf] at hpart
      | ospf e =>
        simp only [participatesOspf] at hpart
        cases hl : mapLookup cn e.nodes with
        | none =>
          rw [hl] at hpart
          simp at hpart
        | some node =>
          obtain ⟨rid, nip, _, _, _, _, _, _, _, hae, _, hrme, _, hdif, _⟩ :=
            ospf_step_chr cn fid e st st1 node hl hstep
          obtain ⟨ha2, hr2, hi2⟩ := loop_mono cn rest st1 s hrest
          obtain ⟨al, hal, haln⟩ := hae
          obtain ⟨rm, hrm, hrmn⟩ := hrme
          exact ⟨⟨al, ha2 al hal, haln⟩, ⟨rm, hr2 rm hrm, hrmn⟩, hi2 _ hdif⟩
    · exact ih st1 s hrest p hp1 hpart

theorem loop_ospf_part (cn : String) :
    ∀ (l : List (String × FabricEntry)) (st s : BuildState),
      buildFabricLoop cn l st = .ok s →
      st.current_router_id = none →
      (∃ p ∈ l, participatesOspf cn p.2 = true) →
      ∃ ip, firstOspfIp cn l = some ip := by
  intro l
  induction l with
  | nil =>
    intro st s h hr hex
    obtain ⟨p, hp, _⟩ := hex
    simp at hp
  | cons q rest ih =>
    obtain ⟨fid, entry⟩ := q
    intro st s h hr hex
    obtain ⟨st1, hstep, hrest⟩ := exceptBind_ok _ _ _ h
    cases entry with
    | openfabric e =>
      have hex2 : ∃ p ∈ rest, participatesOspf cn p.2 = true := by
        obtain ⟨p, hp, hpart⟩ := hex
        rcases List.mem_cons.mp hp with hp1 | hp1
        · subst hp1
          simp [participatesOspf] at hpart
        · exact ⟨p, hp1, hpart⟩
      cases hl : mapLookup cn e.nodes with
      | none =>
        rw [buildFabricEntry_skip cn fid _ st (by simp [participates, hl])] at hstep
        have he : st = st1 := Except.ok.inj hstep
        subst he
        exact ih st s hrest hr hex2
      | some node =>
        obtain ⟨net, _, hcrid, _, _, _, _, _, _, _⟩ :=
          of_step_chr cn fid e st st1 node hl hstep
        have hr1 : st1.current_router_id = none := by
          rw [hcrid, hr]
        exact ih st1 s hrest hr1 hex2
    | ospf e =>
      cases hl : mapLookup cn e.nodes with
      | none =>
        have hex2 : ∃ p ∈ rest, participatesOspf cn p.2 = true := by
          obtain ⟨p, hp, hpart⟩ := hex
          rcases List.mem_cons.mp hp with hp1 | hp1
          · subst hp1
            simp [participatesOspf, hl] at hpart
          · exact ⟨p, hp1, hpart⟩
        rw [buildFabricEntry_skip cn fid _ st (by simp [participates, hl])] at hstep
        have he : st = st1 := Except.ok.inj hstep
        subst he
        obtain ⟨ip, hip⟩ := ih st s hrest hr hex2
        refine ⟨ip, ?_⟩
        simp only [firstOspfIp, hl]
        exact hip
      | some node =>
        obtain ⟨rid, nip, hdr, hnip, _, _, _, _, _, _, _, _, _, _, _⟩ :=
          ospf_step_chr cn fid e st st1 node hl hstep
        refine ⟨rid, ?_⟩
        simp only [firstOspfIp, hl]
        rw [hr] at hdr
        simpa [deriveRid] using hdr

theorem loop_router_preserve (cn : String) :
    ∀ (l : List (String × FabricEntry)) (st s : BuildState),
      buildFabricLoop cn l st = .ok s →
      ∀ fid2, fid2 ∉ l.map Prod.fst →
        amLookup (SerRouterName.openfabric fid2) s.frr.router =
          amLookup (SerRouterName.openfabric fid2) st.frr.router := by
  intro l
  induction l with
  | nil =>
    intro st s h fid2 _
    have he : st = s := Except.ok.inj h
    subst he
    rfl
  | cons q rest ih =>
    obtain ⟨fid, entry⟩ := q
    intro st s h fid2 hnm
    obtain ⟨st1, hstep, hrest⟩ := exceptBind_ok _ _ _ h
    have hnm1 : fid2 ≠ fid := by
      intro he
      exact hnm (by simp [he])
    have hnm2 : fid2 ∉ rest.map Prod.fst := fun hm => hnm (by simp [hm])
    rw [ih st1 s hrest fid2 hnm2]
    cases entry with
    | openfabric e =>
      cases hl : mapLookup cn e.nodes with
      | none =>
        rw [buildFabricEntry_skip cn fid _ st (by simp [participates, hl])] at hstep
        rw [← Except.ok.inj hstep]
      | some node =>
        obtain ⟨net, _, _, _, _, hpres, _, _, _, _⟩ :=
          of_step_chr cn fid e st st1 node hl hstep
        exact hpres _ (by simp [hnm1])
    | ospf e =>
      cases hl : mapLookup cn e.nodes with
      | none =>
        rw [buildFabricEntry_skip cn fid _ st (by simp [participates, hl])] at hstep
        rw [← Except.ok.inj hstep]
      | some node =>
        obtain ⟨rid, nip, _, _, _, _, _, hpres, _, _, _, _, _, _, _⟩ :=
          ospf_step_chr cn fid e st st1 node hl hstep
        exact hpres _ (by simp)

theorem loop_of_routers (cn : String) :
    ∀ (l : List (String × FabricEntry)) (st s : BuildState),
      buildFabricLoop cn l st = .ok s →
      (l.map Prod.fst).Nodup →
      ∀ p ∈ l, participatesOpenfabric cn p.2 = true →
        ∃ net,
          amLookup (SerRouterName.openfabric p.1) s.frr.router =
            some (SerRouter.openfabric ⟨net⟩) ∧
          (match st.current_net with
           | some n => n = net
           | none => firstOpenfabricNet cn l = some net) := by
  intro l
  induction l with
  | nil =>
    intro st s h hk p hp hpart
    simp at hp
  | cons q rest ih =>
    obtain ⟨fid, entry⟩ := q
    intro st s h hk p hp hpart
    obtain ⟨st1, hstep, hrest⟩ := exceptBind_ok _ _ _ h
    simp only [List.map_cons, List.nodup_cons] at hk
    rcases List.mem_cons.mp hp with hp1 | hp1
    · subst hp1
      cases entry with
      | ospf e => simp [participatesOpenfabric] at hpart
      | openfabric e =>
        simp only [participatesOpenfabric] at hpart
        cases hl : mapLookup cn e.nodes with
        | none =>
          rw [hl] at hpart
          simp at hpart
        | some node =>
          obtain ⟨net, hdn, hcrid, hcnet, hlk, _, _, _, _, _⟩ :=
            of_step_chr cn fid e st st1 node hl hstep
          refine ⟨net, ?_, ?_⟩
          · show amLookup (SerRouterName.openfabric fid) s.frr.router =
              some (SerRouter.openfabric ⟨net⟩)
            rw [loop_router_preserve cn rest st1 s hrest fid hk.1]
            exact hlk
          · cases hcn2 : st.current_net with
            | some n0 =>
              rw [hcn2] at hdn
              simp only [deriveNet] at hdn
              exact Option.some.inj hdn
            | none =>
              rw [hcn2] at hdn
              show firstOpenfabricNet cn ((fid, FabricEntry.openfabric e) :: rest) =
                some net
              rw [firstOpenfabricNet_head cn fid e node hl rest]
              exact hdn
    · obtain ⟨net, hlk, hmatch⟩ := ih st1 s hrest hk.2 p hp1 hpart
      refine ⟨net, hlk, ?_⟩
      cases entry with
      | openfabric e =>
        cases hl : mapLookup cn e.nodes with
        | none =>
          rw [buildFabricEntry_skip cn fid _ st (by simp [participates, hl])] at hstep
          have he : st = st1 := Except.ok.inj hstep
          rw [← he] at hmatch
          cases hcn2 : st.current_net with
          | some n0 =>
            rw [hcn2] at hmatch
            exact hmatch
          | none =>
            rw [hcn2] at hmatch
            show firstOpenfabricNet cn ((fid, FabricEntry.openfabric e) :: rest) =
              some net
            simp only [firstOpenfabricNet, hl]
            exact hmatch
        | some node =>
          obtain ⟨net0, hdn0, _, hcnet0, _, _, _, _, _, _⟩ :=
            of_step_chr cn fid e st st1 node hl hstep
          rw [hcnet0] at hmatch
          have hnet0 : net0 = net := hmatch
          subst hnet0
          cases hcn2 : st.current_net with
          | some n0 =>
            rw [hcn2] at hdn0
            exact Option.some.inj hdn0
          | none =>
            rw [hcn2] at hdn0
            show firstOpenfabricNet cn ((fid, FabricEntry.openfabric e) :: rest) =
              some net0
            rw [firstOpenfabricNet_head cn fid e node hl rest]
            exact hdn0
      | ospf e =>
        cases hl : mapLookup cn e.nodes with
        | none =>
          rw [buildFabricEntry_skip cn fid _ st (by simp [participates, hl])] at hstep
          have he : st = st1 := Except.ok.inj hstep
          rw [← he] at hmatch
          cases hcn2 : st.current_net with
          | some n0 =>
            rw [hcn2] at hmatch
            exact hmatch
          | none =>
            rw [hcn2] at hmatch
            exact hmatch
        | some node =>
          obtain ⟨rid, nip, _, _, _, hcnet, _, _, _, _, _, _, _, _, _⟩ :=
            ospf_step_chr cn fid e st st1 node hl hstep
          rw [hcnet] at hmatch
          cases hcn2 : st.current_net with
          | some n0 =>
            rw [hcn2] at hmatch
            exact hmatch
          | none =>
            rw [hcn2] at hmatch
            exact hmatch

/-- C5: for a validated configuration and a current node participating
in at least one OSPF fabric, build_fabric emits exactly one OSPF router
record (the constant router key collapses repeated insertions), whose
router id is the node IPv4 address of the first OSPF fabric, in
iteration order, in which the node participates; every participating
OSPF fabric still contributes its own access-list, route-map and dummy
interface. -/
theorem c5_single_ospf_router (cn : String) (cfg : FabricConfig) (s : FrrConfig)
    (hvalid : cfg.validate = .ok ())
    (hbuild : build_fabric cn cfg FrrConfig.new = .ok s)
    (hpart : ∃ p ∈ cfg.fabrics, participatesOspf cn p.2 = true) :
    ∃ ip, firstOspfIp cn cfg.fabrics = some ip ∧
      s.router.filter (fun p => decide (p.1 = SerRouterName.ospf)) =
        [(SerRouterName.ospf, SerRouter.ospf ⟨ip⟩)] ∧
      ∀ p ∈ cfg.fabrics, participatesOspf cn p.2 = true →
        (∃ al ∈ s.access_lists, al.name = "pve_ospf_" ++ p.1 ++ "_ips") ∧
        (∃ rm ∈ s.routemaps, rm.name = "pve_ospf" ∧
          rm.matchers = [RouteMapMatch.v4ip ("pve_ospf_" ++ p.1 ++ "_ips")]) ∧
        (amLookup (SerInterfaceName.openfabric ("dummy_" ++ p.1))
          s.interfaces).isSome = true := by
  obtain ⟨stf, hloop, hfrr⟩ := exceptMap_ok _ _ _ hbuild
  obtain ⟨hn2, ht2, hr2⟩ :=
    loop_ospf_inv cn cfg.fabrics _ stf hloop List.nodup_nil rfl
  obtain ⟨ip, hfip⟩ := loop_ospf_part cn cfg.fabrics _ stf hloop rfl hpart
  have hrid : stf.current_router_id = some ip := by
    rw [hr2]
    exact hfip
  have hlk : amLookup SerRouterName.ospf stf.frr.router =
      some (SerRouter.ospf ⟨ip⟩) := by
    have ht3 := ht2
    unfold ospfTie at ht3
    rw [hrid] at ht3
    exact ht3
  refine ⟨ip, hfip, ?_, ?_⟩
  · rw [← hfrr]
    exact filter_eq_single _ _ _ hn2 hlk
  · intro p hp hpart2
    obtain ⟨he1, he2, he3⟩ := loop_ospf_emits cn cfg.fabrics _ stf hloop p hp hpart2
    rw [← hfrr]
    exact ⟨he1, he2, he3⟩

theorem c5_witness :
    sampleCfgC5.validate = .ok () ∧
    (∃ p ∈ sampleCfgC5.fabrics, participatesOspf "pve" p.2 = true) ∧
    ∃ s, build_fabric "pve" sampleCfgC5 FrrConfig.new = .ok s ∧
      ∃ ip, firstOspfIp "pve" sampleCfgC5.fabrics = some ip ∧
        s.router.filter (fun p => decide (p.1 = SerRouterName.ospf)) =
          [(SerRouterName.ospf, SerRouter.ospf ⟨ip⟩)] ∧
        ∀ p ∈ sampleCfgC5.fabrics, participatesOspf "pve" p.2 = true →
          (∃ al ∈ s.access_lists, al.name = "pve_ospf_" ++ p.1 ++ "_ips") ∧
          (∃ rm ∈ s.routemaps, rm.name = "pve_ospf" ∧
            rm.matchers = [RouteMapMatch.v4ip ("pve_ospf_" ++ p.1 ++ "_ips")]) ∧
          (amLookup (SerInterfaceName.openfabric ("dummy_" ++ p.1))
            s.interfaces).isSome = true := by
  obtain ⟨s, hb⟩ : ∃ s, build_fabric "pve" sampleCfgC5 FrrConfig.new = .ok s :=
    ⟨(build_fabric "pve" sampleCfgC5 FrrConfig.new).toOption.getD FrrConfig.new, rfl⟩
  exact ⟨rfl, by decide, s, hb,
    c5_single_ospf_router "pve" sampleCfgC5 s rfl hb (by decide)⟩

/-- C4, counterexample: in a validated two-fabric OpenFabric
configuration, the router record of the second fabric carries the NET
derived from the node address in the FIRST fabric (the current_net
cache is never reset between fabrics), not the NET derived from its
own node section, refuting the per-fabric NET derivation. -/
theorem c4_net_cached_counterexample :
    sampleCfgC4.validate = .ok () ∧
    (sampleCfgC4.fabrics.map Prod.fst).Nodup ∧
    (∃ e, mapLookup "f2" sampleCfgC4.fabrics = some (FabricEntry.openfabric e) ∧
      ∃ node, mapLookup "pve" e.nodes = some node ∧
        node.ip = some 0x0A000101 ∧ node.ip6 = none ∧
        deriveNet none node = some (Net.fromIpv4 0x0A000101)) ∧
    (match build_fabric "pve" sampleCfgC4 FrrConfig.new with
     | .ok f => amLookup (SerRouterName.openfabric "f2") f.router
     | .error _ => none) =
      some (SerRouter.openfabric ⟨Net.fromIpv4 0x0A000001⟩) ∧
    Net.fromIpv4 0x0A000001 ≠ Net.fromIpv4 0x0A000101 :=
  ⟨rfl, by decide, ⟨_, rfl, _, rfl, rfl, rfl, rfl⟩, rfl, by decide⟩

/-- C4, amended: for a validated configuration with distinct fabric
ids, every OpenFabric fabric in which the current node participates
gets a router record keyed by its fabric id, but all of them carry the
SAME NET: the one derived from the node addresses in the first
participating OpenFabric fabric in iteration order. -/
theorem c4_per_fabric_net (cn : String) (cfg : FabricConfig) (s : FrrConfig)
    (hvalid : cfg.validate = .ok ())
    (hkeys : (cfg.fabrics.map Prod.fst).Nodup)
    (hbuild : build_fabric cn cfg FrrConfig.new = .ok s) :
    ∀ p ∈ cfg.fabrics, participatesOpenfabric cn p.2 = true →
      ∃ net, firstOpenfabricNet cn cfg.fabrics = some net ∧
        amLookup (SerRouterName.openfabric p.1) s.router =
          some (SerRouter.openfabric ⟨net⟩) := by
  intro p hp hpart
  obtain ⟨stf, hloop, hfrr⟩ := exceptMap_ok _ _ _ hbuild
  obtain ⟨net, hlk, hmatch⟩ :=
    loop_of_routers cn cfg.fabrics _ stf hloop hkeys p hp hpart
  refine ⟨net, hmatch, ?_⟩
  rw [← hfrr]
  exact hlk

theorem c4_witness :
    sampleCfgC4.validate = .ok () ∧
    (sampleCfgC4.fabrics.map Prod.fst).Nodup ∧
    ∃ s, build_fabric "pve" sampleCfgC4 FrrConfig.new = .ok s ∧
      ∀ p ∈ sampleCfgC4.fabrics, participatesOpenfabric "pve" p.2 = true →
        ∃ net, firstOpenfabricNet "pve" sampleCfgC4.fabrics = some net ∧
          amLookup (SerRouterName.openfabric p.1) s.router =
            some (SerRouter.openfabric ⟨net⟩) := by
  obtain ⟨s, hb⟩ : ∃ s, build_fabric "pve" sampleCfgC4 FrrConfig.new = .ok s :=
    ⟨(build_fabric "pve" sampleCfgC4 FrrConfig.new).toOption.getD FrrConfig.new, rfl⟩
  exact ⟨rfl, by decide, s, hb,
    c4_per_fabric_net "pve" sampleCfgC4 s rfl (by decide) hb⟩

end PveRs
